import Mathlib

/-
Verification development for the starboard aggregation engine
(`cogs/stars.py`).  The store (PostgreSQL tables `starboard`,
`starboard_entries`, `starrers`), the messaging platform (Discord
channels/messages) and the engine state (message cache, pending
self-deletion set) are shallowly embedded; `_star_message` and
`_unstar_message` are translated statement by statement.
-/

namespace Stars

/-- A guild channel: its id and NSFW flag (`channel.is_nsfw()`). -/
structure Channel where
  id : Nat
  nsfw : Bool
deriving DecidableEq, Repr

/-- A platform message, with the fields `_star_message` reads:
`author.id`, whether `content`/`attachments` are non-empty, whether the
message type is `default`/`reply`, and `created_at`.  `stars_shown`
models the star count rendered into a starboard mirror message's
content/embed by `get_emoji_message` (0 and irrelevant for ordinary
messages). -/
structure Msg where
  id : Nat
  channel_id : Nat
  author_id : Nat
  has_content : Bool
  has_attachments : Bool
  type_ok : Bool
  created_at : Int
  stars_shown : Nat
deriving DecidableEq, Repr

/-- A row of the `starboard` table (one per guild): `channel_id`,
`threshold`, `locked`, `max_age` (a duration, in seconds). -/
structure SBRow where
  channel_id : Option Nat
  threshold : Nat
  locked : Bool
  max_age : Int
deriving DecidableEq, Repr

/-- A row of `starboard_entries`: serial `id`, unique `message_id`
(origin message), `channel_id`, `guild_id`, `author_id`, nullable
`bot_message_id` (the mirror message in the starboard channel). -/
structure Entry where
  id : Nat
  message_id : Nat
  channel_id : Nat
  guild_id : Nat
  author_id : Nat
  bot_message_id : Option Nat
deriving DecidableEq, Repr

/-- The per-call environment that `_star_message` consults but never
mutates: the guild id, the guild's channel list
(`guild.get_channel_or_thread`), the guild's `starboard` row (if any),
and whether the bot has send-messages permission in the starboard
channel (`starboard_channel.permissions_for(me).send_messages`). -/
structure Env where
  guild_id : Nat
  channels : List Channel
  config : Option SBRow
  canSend : Bool
deriving DecidableEq, Repr

/-- The mutable state: the `starboard_entries` and `starrers` tables
(a starrer row is an `(author_id, entry_id)` pair), the serial counter
for entry ids, the platform messages (`msgs`, origin messages plus live
mirror messages), the engine's `_message_cache` keyed by message id,
the `_about_to_be_deleted` set, and a fresh-id counter for messages the
bot sends. -/
structure State where
  entries : List Entry
  starrers : List (Nat × Nat)
  nextEntryId : Nat
  msgs : List Msg
  cache : List (Nat × Msg)
  aboutToBeDeleted : List Nat
  nextMsgId : Nat
deriving DecidableEq, Repr

/-- The `StarError` outcomes of `_star_message` / `_unstar_message`,
one constructor per distinct `raise StarError(...)` site.
`depthExceeded` models Python's recursion limit for the (unreachable)
case of a redirect chain longer than the modelled fuel. -/
inductive StarErr where
  | noStarboard
  | locked
  | nsfwMismatch
  | redirectNotFound
  | originChannelNotFound
  | noPermission
  | messageNotFound
  | selfStar
  | notStarrable
  | tooOld
  | alreadyStarred
  | notStarred
  | depthExceeded
deriving DecidableEq, Repr

/-- `guild.get_channel_or_thread(cid)`. -/
def getChannel (env : Env) (cid : Nat) : Option Channel :=
  env.channels.find? (fun c => c.id == cid)

/-- `starboard = await self.get_starboard(guild_id)` followed by
`starboard.channel`: the config row paired with the resolved starboard
channel; `none` when there is no row, the row has no channel, or the
channel no longer exists in the guild. -/
def resolveStarboard (env : Env) : Option (SBRow × Channel) :=
  match env.config with
  | none => none
  | some r =>
    match r.channel_id with
    | none => none
    | some cid => (getChannel env cid).map (fun c => (r, c))

/-- `self._message_cache[message_id]` lookup. -/
def lookupCache (cache : List (Nat × Msg)) (mid : Nat) : Option Msg :=
  (cache.find? (fun p => p.1 == mid)).map (fun p => p.2)

/-- `channel.fetch_message(message_id)`: a platform fetch succeeds when
the message exists in that channel; any failure is a miss. -/
def fetchWorld (msgs : List Msg) (chId mid : Nat) : Option Msg :=
  msgs.find? (fun m => m.id == mid && m.channel_id == chId)

/-- `Stars.get_message`: cache hit (keyed by message id only), else
remote fetch, caching on success (`None`, cache untouched, on
failure). -/
def get_message (chId mid : Nat) (s : State) : Option Msg × State :=
  match lookupCache s.cache mid with
  | some m => (some m, s)
  | none =>
    match fetchWorld s.msgs chId mid with
    | none => (none, s)
    | some m => (some m, { s with cache := (mid, m) :: s.cache })

/-- The value `get_message` returns, without the cache update. -/
def fetchM (s : State) (chId mid : Nat) : Option Msg :=
  match lookupCache s.cache mid with
  | some m => some m
  | none => fetchWorld s.msgs chId mid

/-- `SELECT ... FROM starboard_entries WHERE message_id=$1`. -/
def findEntryByMsg (l : List Entry) (mid : Nat) : Option Entry :=
  l.find? (fun e => e.message_id == mid)

/-- `SELECT ... FROM starboard_entries WHERE bot_message_id=$1`. -/
def findEntryByBot (l : List Entry) (mid : Nat) : Option Entry :=
  l.find? (fun e => e.bot_message_id == some mid)

/-- `SELECT COUNT(*) FROM starrers WHERE entry_id=$1`. -/
def countStars (st : List (Nat × Nat)) (eid : Nat) : Nat :=
  st.countP (fun p => p.2 == eid)

/-- `DELETE FROM starrers ... WHERE ... author_id=$2` for one entry. -/
def removeStarrer (st : List (Nat × Nat)) (sid eid : Nat) : List (Nat × Nat) :=
  st.filter (fun p => !(p.1 == sid && p.2 == eid))

/-- `UPDATE starboard_entries SET bot_message_id=$1 WHERE message_id=$2`. -/
def setBotByMessageId (l : List Entry) (mid : Nat) (bm : Option Nat) : List Entry :=
  l.map (fun e => if e.message_id = mid then { e with bot_message_id := bm } else e)

/-- `UPDATE starboard_entries SET bot_message_id=NULL WHERE id=$1`. -/
def setBotNullByEntryId (l : List Entry) (eid : Nat) : List Entry :=
  l.map (fun e => if e.id = eid then { e with bot_message_id := none } else e)

/-- `DELETE FROM starboard_entries WHERE message_id=$1`. -/
def deleteEntryByMsg (l : List Entry) (mid : Nat) : List Entry :=
  l.filter (fun e => !(e.message_id == mid))

/-- `DELETE FROM starboard_entries WHERE id=$1`. -/
def deleteEntryById (l : List Entry) (eid : Nat) : List Entry :=
  l.filter (fun e => !(e.id == eid))

/-- `bot_message.delete()`: the message disappears from the platform. -/
def deleteWorldMsg (msgs : List Msg) (mid : Nat) : List Msg :=
  msgs.filter (fun m => !(m.id == mid))

/-- `bot_message.edit(content, embed)` with the re-rendered count. -/
def editWorldMsg (msgs : List Msg) (mid stars : Nat) : List Msg :=
  msgs.map (fun m => if m.id = mid then { m with stars_shown := stars } else m)

/-- The mirror message `starboard_channel.send(content, embed)` posts;
its rendered content/embed is reduced to the displayed star count. -/
def mirrorMsg (sbId nid stars : Nat) : Msg :=
  { id := nid, channel_id := sbId, author_id := 0, has_content := true,
    has_attachments := false, type_ok := true, created_at := 0, stars_shown := stars }

/-- The single atomic insert statement of `_star_message`: insert the
entry on first star (`ON CONFLICT (message_id) DO NOTHING`), then
insert the `(starrer, entry)` pair, returning the entry id.  A unique
violation on the starrer pair aborts the whole statement (no partial
state) and is translated to `AlreadyStarred` by the surrounding
`except asyncpg.UniqueViolationError`. -/
def star_entry_insert (mid chId gId authorId sid : Nat) (s : State) :
    Except StarErr (Nat × State) :=
  match findEntryByMsg s.entries mid with
  | some e =>
    if (sid, e.id) ∈ s.starrers then .error .alreadyStarred
    else .ok (e.id, { s with starrers := (sid, e.id) :: s.starrers })
  | none =>
    if (sid, s.nextEntryId) ∈ s.starrers then .error .alreadyStarred
    else .ok (s.nextEntryId,
      { s with
        entries := { id := s.nextEntryId, message_id := mid, channel_id := chId,
                     guild_id := gId, author_id := authorId,
                     bot_message_id := none } :: s.entries,
        starrers := (sid, s.nextEntryId) :: s.starrers,
        nextEntryId := s.nextEntryId + 1 })

/-- `Stars._star_message`, fuelled for the redirect recursion (the code
recurses when the call targets the starboard channel itself). -/
def star_message (env : Env) :
    Nat → Int → Channel → Nat → Nat → State → Except StarErr Unit × State
  | 0, _, _, _, _, s => (.error .depthExceeded, s)
  | fuel + 1, now, channel, message_id, starrer_id, s =>
    match resolveStarboard env with
    | none => (.error .noStarboard, s)
    | some (r, sb) =>
      if r.locked then (.error .locked, s)
      else if channel.nsfw && !sb.nsfw then (.error .nsfwMismatch, s)
      else if channel.id = sb.id then
        match findEntryByBot s.entries message_id with
        | none => (.error .redirectNotFound, s)
        | some e =>
          match getChannel env e.channel_id with
          | none => (.error .originChannelNotFound, s)
          | some ch => star_message env fuel now ch e.message_id starrer_id s
      else if !env.canSend then (.error .noPermission, s)
      else
        match get_message channel.id message_id s with
        | (none, s1) => (.error .messageNotFound, s1)
        | (some msg, s1) =>
          if msg.author_id = starrer_id then (.error .selfStar, s1)
          else if (!msg.has_content && !msg.has_attachments) || !msg.type_ok then
            (.error .notStarrable, s1)
          else if msg.created_at < now - r.max_age then (.error .tooOld, s1)
          else
            match star_entry_insert message_id channel.id env.guild_id
                msg.author_id starrer_id s1 with
            | .error err => (.error err, s1)
            | .ok (eid, s2) =>
              let count := countStars s2.starrers eid
              if count < r.threshold then (.ok (), s2)
              else
                match findEntryByMsg s2.entries message_id with
                | none => (.ok (), s2)
                | some e2 =>
                  match e2.bot_message_id with
                  | none =>
                    let s3 := { s2 with
                      msgs := s2.msgs ++ [mirrorMsg sb.id s2.nextMsgId count],
                      nextMsgId := s2.nextMsgId + 1 }
                    (.ok (), { s3 with
                      entries := setBotByMessageId s3.entries message_id
                        (some s2.nextMsgId) })
                  | some bmid =>
                    match get_message sb.id bmid s2 with
                    | (none, s3) =>
                      (.ok (), { s3 with
                        entries := deleteEntryByMsg s3.entries message_id })
                    | (some _, s3) =>
                      (.ok (), { s3 with msgs := editWorldMsg s3.msgs bmid count })

/-- `Stars._unstar_message`, fuelled for the redirect recursion. -/
def unstar_message (env : Env) :
    Nat → Channel → Nat → Nat → State → Except StarErr Unit × State
  | 0, _, _, _, s => (.error .depthExceeded, s)
  | fuel + 1, channel, message_id, starrer_id, s =>
    match resolveStarboard env with
    | none => (.error .noStarboard, s)
    | some (r, sb) =>
      if r.locked then (.error .locked, s)
      else if channel.id = sb.id then
        match findEntryByBot s.entries message_id with
        | none => (.error .redirectNotFound, s)
        | some e =>
          match getChannel env e.channel_id with
          | none => (.error .originChannelNotFound, s)
          | some ch => unstar_message env fuel ch e.message_id starrer_id s
      else if !env.canSend then (.error .noPermission, s)
      else
        match findEntryByMsg s.entries message_id with
        | none => (.error .notStarred, s)
        | some e =>
          if (starrer_id, e.id) ∈ s.starrers then
            let s1 := { s with starrers := removeStarrer s.starrers starrer_id e.id }
            let count := countStars s1.starrers e.id
            let s2 := if count = 0 then
                { s1 with entries := deleteEntryById s1.entries e.id } else s1
            match e.bot_message_id with
            | none => (.ok (), s2)
            | some bmid =>
              match get_message sb.id bmid s2 with
              | (none, s3) => (.ok (), s3)
              | (some _, s3) =>
                if count < r.threshold then
                  let s4 := { s3 with aboutToBeDeleted := bmid :: s3.aboutToBeDeleted }
                  let s5 := if count ≠ 0 then
                      { s4 with entries := setBotNullByEntryId s4.entries e.id }
                    else s4
                  (.ok (), { s5 with msgs := deleteWorldMsg s5.msgs bmid })
                else
                  match get_message channel.id message_id s3 with
                  | (none, s4) => (.error .messageNotFound, s4)
                  | (some _, s4) =>
                    (.ok (), { s4 with msgs := editWorldMsg s4.msgs bmid count })
          else (.error .notStarred, s)

/-- `Stars.star_emoji`. -/
def star_emoji (stars : Int) : String :=
  if 5 > stars ∧ stars ≥ 0 then "⭐"
  else if 10 > stars ∧ stars ≥ 5 then "🌟"
  else if 25 > stars ∧ stars ≥ 10 then "💫"
  else "✨"

/-- `Stars.star_gradient_colour`.  Python float arithmetic is modelled
exactly over ℚ; `int()` on the (non-negative) interpolants is `⌊·⌋`. -/
def star_gradient_colour (stars : Int) : Int :=
  let p : ℚ := if (stars : ℚ) / 13 > 1 then 1 else (stars : ℚ) / 13
  let red : Int := 255
  let green : Int := ⌊(194 * p) + (253 * (1 - p))⌋
  let blue : Int := ⌊(12 * p) + (247 * (1 - p))⌋
  red * 2 ^ 16 + green * 2 ^ 8 + blue

/-- The colour policy as the spec words it: linear interpolation from
RGB (255, 253, 247) at count 0 to (255, 194, 12) at count 13, with the
interpolation fraction clamped to 1 beyond count 13. -/
def star_colour_spec (stars : Int) : Int :=
  let p : ℚ := min ((stars : ℚ) / 13) 1
  let red : Int := 255
  let green : Int := ⌊253 + (194 - 253) * p⌋
  let blue : Int := ⌊247 + (12 - 247) * p⌋
  red * 2 ^ 16 + green * 2 ^ 8 + blue

/-- Reachable engine states under a fixed guild configuration: start
from an empty store and apply `_star_message` / `_unstar_message` steps
(no external deletions interfere). -/
inductive Reachable (env : Env) : State → Prop where
  | init (msgs0 : List Msg) (nm : Nat) :
      Reachable env { entries := [], starrers := [], nextEntryId := 0,
                      msgs := msgs0, cache := [], aboutToBeDeleted := [],
                      nextMsgId := nm }
  | star {s : State} (h : Reachable env s) (fuel : Nat) (now : Int)
      (ch : Channel) (mid sid : Nat) :
      Reachable env (star_message env fuel now ch mid sid s).2
  | unstar {s : State} (h : Reachable env s) (fuel : Nat)
      (ch : Channel) (mid sid : Nat) :
      Reachable env (unstar_message env fuel ch mid sid s).2

/-- The configured guild threshold (0 when no `starboard` row exists;
in that case no operation ever touches the store). -/
def threshOf (env : Env) : Nat :=
  match env.config with
  | none => 0
  | some r => r.threshold

/- Concrete scenario used by the witnesses: guild 1, origin channel 10,
starboard channel 20, threshold 2, a 7-day max age, and an ordinary
starrable message with id 5 by author 42 in channel 10. -/

def chOrigin : Channel := { id := 10, nsfw := false }

def chBoard : Channel := { id := 20, nsfw := false }

def rowW : SBRow :=
  { channel_id := some 20, threshold := 2, locked := false, max_age := 604800 }

def envW : Env :=
  { guild_id := 1, channels := [chOrigin, chBoard], config := some rowW,
    canSend := true }

def envWNoPerm : Env := { envW with canSend := false }

def envWLocked : Env :=
  { envW with config := some { rowW with locked := true, threshold := 1 } }

def msgW : Msg :=
  { id := 5, channel_id := 10, author_id := 42, has_content := true,
    has_attachments := false, type_ok := true, created_at := 0, stars_shown := 0 }

/-- An entry for `msgW`, not yet published to the starboard. -/
def entryW : Entry :=
  { id := 0, message_id := 5, channel_id := 10, guild_id := 1, author_id := 42,
    bot_message_id := none }

/-- The same entry, published with mirror message 99. -/
def entryWPub : Entry := { entryW with bot_message_id := some 99 }

/-- The live mirror message 99 in the starboard channel. -/
def mirrorW : Msg :=
  { id := 99, channel_id := 20, author_id := 0, has_content := true,
    has_attachments := false, type_ok := true, created_at := 0, stars_shown := 2 }

def stateW0 : State :=
  { entries := [], starrers := [], nextEntryId := 0, msgs := [msgW],
    cache := [], aboutToBeDeleted := [], nextMsgId := 100 }

/-- User 7 has already starred message 5 (count 1, below threshold). -/
def stateW1 : State :=
  { stateW0 with entries := [entryW], starrers := [(7, 0)], nextEntryId := 1 }

/-- Users 7 and 8 starred message 5; mirror 99 is published and live. -/
def stateWPub : State :=
  { stateW0 with
    entries := [entryWPub], starrers := [(7, 0), (8, 0)],
    nextEntryId := 1, msgs := [msgW, mirrorW] }

/-- As `stateWPub`, but mirror 99 was deleted externally (gone from the
platform, absent from the message cache): the stored id is stale. -/
def stateWStale : State :=
  { stateWPub with msgs := [msgW] }

/-- The inductive invariant of the starboard engine, for a fixed
environment: store well-formedness (entries unique per origin message
id and per entry id, serial counters fresh, starrer pairs unique),
mirror health (mirror ids fresh, live in the starboard channel, owned
by at most one entry), and the central property: an entry's
`bot_message_id` is non-null exactly when its distinct-starrer count
meets the guild threshold. -/
structure Inv (env : Env) (s : State) : Prop where
  entry_msg_inj : ∀ e1 ∈ s.entries, ∀ e2 ∈ s.entries,
    e1.message_id = e2.message_id → e1 = e2
  entry_id_inj : ∀ e1 ∈ s.entries, ∀ e2 ∈ s.entries, e1.id = e2.id → e1 = e2
  entry_id_lt : ∀ e ∈ s.entries, e.id < s.nextEntryId
  starrer_lt : ∀ p ∈ s.starrers, p.2 < s.nextEntryId
  starrer_nodup : s.starrers.Nodup
  bot_lt : ∀ e ∈ s.entries, ∀ bm, e.bot_message_id = some bm → bm < s.nextMsgId
  bot_live : ∀ e ∈ s.entries, ∀ bm, e.bot_message_id = some bm →
    ∀ rsb : SBRow × Channel, resolveStarboard env = some rsb →
      ∃ m ∈ s.msgs, m.id = bm ∧ m.channel_id = rsb.2.id
  bot_inj : ∀ e1 ∈ s.entries, ∀ e2 ∈ s.entries, ∀ bm,
    e1.bot_message_id = some bm → e2.bot_message_id = some bm → e1 = e2
  mirror : ∀ e ∈ s.entries,
    (e.bot_message_id ≠ none ↔ threshOf env ≤ countStars s.starrers e.id)

/-- An ancient message (id 6), far older than the 7-day max age. -/
def msgOld : Msg :=
  { msgW with id := 6, created_at := -1000000000 }

/-- Store holding an unrelated starred entry, plus the ancient message. -/
def stateWOld : State :=
  { stateW1 with msgs := [msgW, msgOld] }

end Stars

namespace Stars

/- Helper lemmas about the embedded store/platform operations. -/

theorem fetchM_none {s : State} {c m : Nat} (h : fetchM s c m = none) :
    lookupCache s.cache m = none ∧ fetchWorld s.msgs c m = none := by
  unfold fetchM at h
  cases hl : lookupCache s.cache m with
  | some x => rw [hl] at h; cases h
  | none => rw [hl] at h; exact ⟨rfl, h⟩

theorem get_message_spec (c m : Nat) (s : State) :
    ∃ k, get_message c m s = (fetchM s c m, { s with cache := k }) := by
  unfold get_message fetchM
  cases hl : lookupCache s.cache m with
  | some x => exact ⟨s.cache, rfl⟩
  | none =>
    cases hw : fetchWorld s.msgs c m with
    | none => exact ⟨s.cache, rfl⟩
    | some mm => exact ⟨(m, mm) :: s.cache, rfl⟩

theorem findEntryByMsg_some {l : List Entry} {mid : Nat} {e : Entry}
    (h : findEntryByMsg l mid = some e) : e ∈ l ∧ e.message_id = mid := by
  refine ⟨List.mem_of_find?_eq_some h, ?_⟩
  have := List.find?_some h
  simpa using this

theorem findEntryByMsg_none {l : List Entry} {mid : Nat}
    (h : findEntryByMsg l mid = none) : ∀ e ∈ l, e.message_id ≠ mid := by
  intro e he
  have := List.find?_eq_none.mp h e he
  simpa using this

theorem countStars_cons (a b eid : Nat) (l : List (Nat × Nat)) :
    countStars ((a, b) :: l) eid = countStars l eid + if b = eid then 1 else 0 := by
  simp [countStars, List.countP_cons]

theorem countStars_fresh {l : List (Nat × Nat)} {n : Nat}
    (h : ∀ p ∈ l, p.2 < n) : countStars l n = 0 := by
  simp only [countStars, List.countP_eq_zero]
  intro p hp
  simpa using Nat.ne_of_lt (h p hp)

theorem pair_pred_eq {p : Nat × Nat} {sid eid : Nat} :
    (p.1 == sid && p.2 == eid) = true ↔ p = (sid, eid) := by
  cases p
  simp [Prod.ext_iff]

theorem countStars_remove {l : List (Nat × Nat)} (hnd : l.Nodup) {sid eid : Nat}
    (hmem : (sid, eid) ∈ l) :
    countStars (removeStarrer l sid eid) eid + 1 = countStars l eid := by
  induction l with
  | nil => cases hmem
  | cons hd tl ih =>
    rcases List.nodup_cons.mp hnd with ⟨hhd, htl⟩
    by_cases hpair : hd = (sid, eid)
    · have hdrop : removeStarrer (hd :: tl) sid eid = tl := by
        simp only [removeStarrer, List.filter]
        rw [show (hd.1 == sid && hd.2 == eid) = true from pair_pred_eq.mpr hpair]
        simp only [Bool.not_true]
        refine List.filter_eq_self.mpr (fun p hp => ?_)
        have hne : (p.1 == sid && p.2 == eid) = false := by
          rw [Bool.eq_false_iff]
          intro hc
          rw [pair_pred_eq.mp hc, ← hpair] at hp
          exact hhd hp
        rw [hne]
        rfl
      rw [hdrop, hpair, countStars_cons, if_pos rfl]
    · have hmem' : (sid, eid) ∈ tl := by
        rcases List.mem_cons.mp hmem with h | h
        · exact absurd h.symm hpair
        · exact h
      have hkeep : removeStarrer (hd :: tl) sid eid =
          hd :: removeStarrer tl sid eid := by
        simp only [removeStarrer, List.filter]
        rw [show (hd.1 == sid && hd.2 == eid) = false from by
          rw [Bool.eq_false_iff]
          intro hc
          exact hpair (pair_pred_eq.mp hc)]
        rfl
      rw [hkeep]
      obtain ⟨h1, h2⟩ := hd
      rw [countStars_cons, countStars_cons]
      have := ih htl hmem'
      split <;> omega

end Stars


namespace Stars

/-- C6: for every non-negative star count, `star_emoji` returns the
plain star on [0,5), the glowing star on [5,10), the dizzy symbol on
[10,25) and sparkles on [25,∞), and `star_gradient_colour` equals the
linear interpolation from RGB (255,253,247) at count 0 to
(255,194,12) at count 13, with the fraction clamped to 1 beyond 13
(`star_colour_spec`). -/
theorem star_emoji_tiers_and_gradient (s : Int) (h : 0 ≤ s) :
    (s < 5 → star_emoji s = "⭐") ∧
    (5 ≤ s → s < 10 → star_emoji s = "🌟") ∧
    (10 ≤ s → s < 25 → star_emoji s = "💫") ∧
    (25 ≤ s → star_emoji s = "✨") ∧
    star_gradient_colour s = star_colour_spec s := by
  refine ⟨?_, ?_, ?_, ?_, ?_⟩
  · intro h5
    unfold star_emoji
    rw [if_pos ⟨h5, h⟩]
  · intro h5 h10
    unfold star_emoji
    rw [if_neg (by omega), if_pos ⟨h10, h5⟩]
  · intro h10 h25
    unfold star_emoji
    rw [if_neg (by omega), if_neg (by omega), if_pos ⟨h25, h10⟩]
  · intro h25
    unfold star_emoji
    rw [if_neg (by omega), if_neg (by omega), if_neg (by omega)]
  · simp only [star_gradient_colour, star_colour_spec]
    have hpq : (if ((s : ℚ) / 13) > 1 then (1 : ℚ) else (s : ℚ) / 13)
        = min ((s : ℚ) / 13) 1 := by
      rcases le_or_lt ((s : ℚ) / 13) 1 with hle | hlt
      · rw [if_neg (not_lt.mpr hle), min_eq_left hle]
      · rw [if_pos hlt, min_eq_right hlt.le]
    rw [hpq]
    have hg : (194 : ℚ) * min ((s : ℚ) / 13) 1 + 253 * (1 - min ((s : ℚ) / 13) 1)
        = 253 + (194 - 253) * min ((s : ℚ) / 13) 1 := by ring
    have hb : (12 : ℚ) * min ((s : ℚ) / 13) 1 + 247 * (1 - min ((s : ℚ) / 13) 1)
        = 247 + (12 - 247) * min ((s : ℚ) / 13) 1 := by ring
    rw [hg, hb]

/-- Witness for C6, at count 7. -/
theorem star_emoji_tiers_and_gradient_witness :
    0 ≤ (7 : Int) ∧
    (((7 : Int) < 5 → star_emoji 7 = "⭐") ∧
     (5 ≤ (7 : Int) → (7 : Int) < 10 → star_emoji 7 = "🌟") ∧
     (10 ≤ (7 : Int) → (7 : Int) < 25 → star_emoji 7 = "💫") ∧
     (25 ≤ (7 : Int) → star_emoji 7 = "✨") ∧
     star_gradient_colour 7 = star_colour_spec 7) :=
  ⟨by decide, star_emoji_tiers_and_gradient 7 (by decide)⟩

/-- C10: an unstar call that passed the config, lock and redirect
checks fails NoPermission when the bot lacks send-messages permission
in the starboard channel; the check precedes the starrer deletion, so
the whole state is unchanged. -/
theorem unstar_no_permission (env : Env) (fuel : Nat) (channel : Channel)
    (mid sid : Nat) (s : State) (r : SBRow) (sb : Channel)
    (hres : resolveStarboard env = some (r, sb))
    (hlock : r.locked = false)
    (hch : channel.id ≠ sb.id)
    (hperm : env.canSend = false) :
    unstar_message env (fuel + 1) channel mid sid s = (.error .noPermission, s) := by
  simp [unstar_message, hres, hlock, hch, hperm]

/-- Witness for C10. -/
theorem unstar_no_permission_witness :
    resolveStarboard envWNoPerm = some (rowW, chBoard) ∧ rowW.locked = false ∧
    chOrigin.id ≠ chBoard.id ∧ envWNoPerm.canSend = false ∧
    unstar_message envWNoPerm 2 chOrigin 5 7 stateW1 =
      (.error .noPermission, stateW1) :=
  ⟨by decide, by decide, by decide, by decide,
   unstar_no_permission envWNoPerm 1 chOrigin 5 7 stateW1 rowW chBoard
     (by decide) (by decide) (by decide) (by decide)⟩

/-- C9: an unstar that removes a starrer pair leaving a count strictly
between zero and the threshold, whose stored mirror message cannot be
fetched (externally deleted, not cached), returns successfully with
ONLY the starrer removal persisted: the entry keeps the stale
`bot_message_id`, the pending-self-deletion set, the platform messages
and all counters are unchanged. -/
theorem unstar_stale_mirror_frame (env : Env) (fuel : Nat) (channel : Channel)
    (mid sid : Nat) (s : State) (r : SBRow) (sb : Channel) (e : Entry) (bm : Nat)
    (hres : resolveStarboard env = some (r, sb))
    (hlock : r.locked = false)
    (hch : channel.id ≠ sb.id)
    (hperm : env.canSend = true)
    (hfind : findEntryByMsg s.entries mid = some e)
    (hpair : (sid, e.id) ∈ s.starrers)
    (hbot : e.bot_message_id = some bm)
    (hcnt : countStars (removeStarrer s.starrers sid e.id) e.id ≠ 0)
    (hthr : countStars (removeStarrer s.starrers sid e.id) e.id < r.threshold)
    (hstale : fetchM s sb.id bm = none) :
    unstar_message env (fuel + 1) channel mid sid s =
      (.ok (), { s with starrers := removeStarrer s.starrers sid e.id }) := by
  obtain ⟨hl, hw⟩ := fetchM_none hstale
  simp [unstar_message, hres, hlock, hch, hperm, hfind, hpair, hbot, hcnt,
        get_message, hl, hw]

/-- Witness for C9: user 7 unstars message 5 while mirror 99 is stale. -/
theorem unstar_stale_mirror_frame_witness :
    resolveStarboard envW = some (rowW, chBoard) ∧ rowW.locked = false ∧
    chOrigin.id ≠ chBoard.id ∧ envW.canSend = true ∧
    findEntryByMsg stateWStale.entries 5 = some entryWPub ∧
    (7, entryWPub.id) ∈ stateWStale.starrers ∧
    entryWPub.bot_message_id = some 99 ∧
    countStars (removeStarrer stateWStale.starrers 7 entryWPub.id) entryWPub.id ≠ 0 ∧
    countStars (removeStarrer stateWStale.starrers 7 entryWPub.id) entryWPub.id
      < rowW.threshold ∧
    fetchM stateWStale chBoard.id 99 = none ∧
    unstar_message envW 2 chOrigin 5 7 stateWStale =
      (.ok (), { stateWStale with
                 starrers := removeStarrer stateWStale.starrers 7 entryWPub.id }) :=
  ⟨by decide, by decide, by decide, by decide, by decide, by decide, by decide,
   by decide, by decide, by decide,
   unstar_stale_mirror_frame envW 1 chOrigin 5 7 stateWStale rowW chBoard
     entryWPub 99 (by decide) (by decide) (by decide) (by decide) (by decide)
     (by decide) (by decide) (by decide) (by decide) (by decide)⟩

end Stars

namespace Stars

/-- C2: a second star call by a user who already starred the message
fails AlreadyStarred: the uniqueness violation on the starrer insert
aborts the single atomic insert statement and is translated to the
domain error, and the failed call leaves every store component
unchanged — entries, starrers, platform messages, the
pending-self-deletion set and both id counters. -/
theorem star_already_starred (env : Env) (fuel : Nat) (now : Int)
    (channel : Channel) (mid sid : Nat) (s : State) (r : SBRow) (sb : Channel)
    (msg : Msg) (e : Entry)
    (hres : resolveStarboard env = some (r, sb))
    (hlock : r.locked = false)
    (hnsfw : (channel.nsfw && !sb.nsfw) = false)
    (hch : channel.id ≠ sb.id)
    (hperm : env.canSend = true)
    (hmsg : fetchM s channel.id mid = some msg)
    (hself : msg.author_id ≠ sid)
    (hstar : ((!msg.has_content && !msg.has_attachments) || !msg.type_ok) = false)
    (hage : ¬ msg.created_at < now - r.max_age)
    (hfind : findEntryByMsg s.entries mid = some e)
    (hpair : (sid, e.id) ∈ s.starrers) :
    (star_message env (fuel + 1) now channel mid sid s).1 = .error .alreadyStarred ∧
    (star_message env (fuel + 1) now channel mid sid s).2.entries = s.entries ∧
    (star_message env (fuel + 1) now channel mid sid s).2.starrers = s.starrers ∧
    (star_message env (fuel + 1) now channel mid sid s).2.msgs = s.msgs ∧
    (star_message env (fuel + 1) now channel mid sid s).2.aboutToBeDeleted
      = s.aboutToBeDeleted ∧
    (star_message env (fuel + 1) now channel mid sid s).2.nextEntryId
      = s.nextEntryId ∧
    (star_message env (fuel + 1) now channel mid sid s).2.nextMsgId
      = s.nextMsgId := by
  obtain ⟨k, hk⟩ := get_message_spec channel.id mid s
  rw [hmsg] at hk
  simp [star_message, hres, hlock, hnsfw, hch, hperm, hk, hself, hstar, hage,
        star_entry_insert, hfind, hpair]

/-- Witness for C2: user 7 stars message 5 a second time. -/
theorem star_already_starred_witness :
    resolveStarboard envW = some (rowW, chBoard) ∧ rowW.locked = false ∧
    (chOrigin.nsfw && !chBoard.nsfw) = false ∧ chOrigin.id ≠ chBoard.id ∧
    envW.canSend = true ∧ fetchM stateW1 chOrigin.id 5 = some msgW ∧
    msgW.author_id ≠ 7 ∧
    ((!msgW.has_content && !msgW.has_attachments) || !msgW.type_ok) = false ∧
    ¬ msgW.created_at < 0 - rowW.max_age ∧
    findEntryByMsg stateW1.entries 5 = some entryW ∧
    (7, entryW.id) ∈ stateW1.starrers ∧
    ((star_message envW 2 0 chOrigin 5 7 stateW1).1 = .error .alreadyStarred ∧
     (star_message envW 2 0 chOrigin 5 7 stateW1).2.entries = stateW1.entries ∧
     (star_message envW 2 0 chOrigin 5 7 stateW1).2.starrers = stateW1.starrers ∧
     (star_message envW 2 0 chOrigin 5 7 stateW1).2.msgs = stateW1.msgs ∧
     (star_message envW 2 0 chOrigin 5 7 stateW1).2.aboutToBeDeleted
       = stateW1.aboutToBeDeleted ∧
     (star_message envW 2 0 chOrigin 5 7 stateW1).2.nextEntryId
       = stateW1.nextEntryId ∧
     (star_message envW 2 0 chOrigin 5 7 stateW1).2.nextMsgId
       = stateW1.nextMsgId) :=
  ⟨by decide, by decide, by decide, by decide, by decide, by decide, by decide,
   by decide, by decide, by decide, by decide,
   star_already_starred envW 1 0 chOrigin 5 7 stateW1 rowW chBoard msgW entryW
     (by decide) (by decide) (by decide) (by decide) (by decide) (by decide)
     (by decide) (by decide) (by decide) (by decide) (by decide)⟩

/-- C3 counterexample: author 42 stars their own message 5 while the
starboard is locked; the call fails with Locked, not SelfStar — the
lock check precedes the self-star check. -/
theorem locked_self_star_counterexample :
    (star_message envWLocked 2 0 chOrigin 5 42 stateW0).1 = .error .locked ∧
    StarErr.locked ≠ StarErr.selfStar := by
  exact ⟨rfl, by decide⟩

/-- C3 (amended): whenever a star call reaches the author check — the
starboard is configured and NOT locked, and the NSFW, redirect,
permission and fetch checks pass — a star whose starrer is the
message's author fails SelfStar, regardless of the guild's threshold
and of any current count, leaving every store component unchanged. -/
theorem star_self_star (env : Env) (fuel : Nat) (now : Int)
    (channel : Channel) (mid sid : Nat) (s : State) (r : SBRow) (sb : Channel)
    (msg : Msg)
    (hres : resolveStarboard env = some (r, sb))
    (hlock : r.locked = false)
    (hnsfw : (channel.nsfw && !sb.nsfw) = false)
    (hch : channel.id ≠ sb.id)
    (hperm : env.canSend = true)
    (hmsg : fetchM s channel.id mid = some msg)
    (hself : msg.author_id = sid) :
    (star_message env (fuel + 1) now channel mid sid s).1 = .error .selfStar ∧
    (star_message env (fuel + 1) now channel mid sid s).2.entries = s.entries ∧
    (star_message env (fuel + 1) now channel mid sid s).2.starrers = s.starrers ∧
    (star_message env (fuel + 1) now channel mid sid s).2.msgs = s.msgs ∧
    (star_message env (fuel + 1) now channel mid sid s).2.aboutToBeDeleted
      = s.aboutToBeDeleted ∧
    (star_message env (fuel + 1) now channel mid sid s).2.nextEntryId
      = s.nextEntryId ∧
    (star_message env (fuel + 1) now channel mid sid s).2.nextMsgId
      = s.nextMsgId := by
  obtain ⟨k, hk⟩ := get_message_spec channel.id mid s
  rw [hmsg] at hk
  simp [star_message, hres, hlock, hnsfw, hch, hperm, hk, hself]

/-- Witness for the amended C3: author 42 stars their own message. -/
theorem star_self_star_witness :
    resolveStarboard envW = some (rowW, chBoard) ∧ rowW.locked = false ∧
    (chOrigin.nsfw && !chBoard.nsfw) = false ∧ chOrigin.id ≠ chBoard.id ∧
    envW.canSend = true ∧ fetchM stateW0 chOrigin.id 5 = some msgW ∧
    msgW.author_id = 42 ∧
    ((star_message envW 2 0 chOrigin 5 42 stateW0).1 = .error .selfStar ∧
     (star_message envW 2 0 chOrigin 5 42 stateW0).2.entries = stateW0.entries ∧
     (star_message envW 2 0 chOrigin 5 42 stateW0).2.starrers = stateW0.starrers ∧
     (star_message envW 2 0 chOrigin 5 42 stateW0).2.msgs = stateW0.msgs ∧
     (star_message envW 2 0 chOrigin 5 42 stateW0).2.aboutToBeDeleted
       = stateW0.aboutToBeDeleted ∧
     (star_message envW 2 0 chOrigin 5 42 stateW0).2.nextEntryId
       = stateW0.nextEntryId ∧
     (star_message envW 2 0 chOrigin 5 42 stateW0).2.nextMsgId
       = stateW0.nextMsgId) :=
  ⟨by decide, by decide, by decide, by decide, by decide, by decide, by decide,
   star_self_star envW 1 0 chOrigin 5 42 stateW0 rowW chBoard msgW
     (by decide) (by decide) (by decide) (by decide) (by decide) (by decide)
     (by decide)⟩

/-- C7: a star call on a message created before now - maxAge, passing
all the preceding config, lock, NSFW, redirect, permission, fetch,
self-star and starrable checks, fails TooOld — for every store state,
hence independently of the message's current star count and of the
guild's threshold — and leaves every store component unchanged. -/
theorem star_too_old (env : Env) (fuel : Nat) (now : Int)
    (channel : Channel) (mid sid : Nat) (s : State) (r : SBRow) (sb : Channel)
    (msg : Msg)
    (hres : resolveStarboard env = some (r, sb))
    (hlock : r.locked = false)
    (hnsfw : (channel.nsfw && !sb.nsfw) = false)
    (hch : channel.id ≠ sb.id)
    (hperm : env.canSend = true)
    (hmsg : fetchM s channel.id mid = some msg)
    (hself : msg.author_id ≠ sid)
    (hstar : ((!msg.has_content && !msg.has_attachments) || !msg.type_ok) = false)
    (hage : msg.created_at < now - r.max_age) :
    (star_message env (fuel + 1) now channel mid sid s).1 = .error .tooOld ∧
    (star_message env (fuel + 1) now channel mid sid s).2.entries = s.entries ∧
    (star_message env (fuel + 1) now channel mid sid s).2.starrers = s.starrers ∧
    (star_message env (fuel + 1) now channel mid sid s).2.msgs = s.msgs ∧
    (star_message env (fuel + 1) now channel mid sid s).2.aboutToBeDeleted
      = s.aboutToBeDeleted ∧
    (star_message env (fuel + 1) now channel mid sid s).2.nextEntryId
      = s.nextEntryId ∧
    (star_message env (fuel + 1) now channel mid sid s).2.nextMsgId
      = s.nextMsgId := by
  obtain ⟨k, hk⟩ := get_message_spec channel.id mid s
  rw [hmsg] at hk
  simp [star_message, hres, hlock, hnsfw, hch, hperm, hk, hself, hstar, hage]

/-- Witness for C7: message 6 is ancient; user 7 stars it while the
store already holds an unrelated starred entry. -/
theorem star_too_old_witness :
    resolveStarboard envW = some (rowW, chBoard) ∧ rowW.locked = false ∧
    (chOrigin.nsfw && !chBoard.nsfw) = false ∧ chOrigin.id ≠ chBoard.id ∧
    envW.canSend = true ∧ fetchM stateWOld chOrigin.id 6 = some msgOld ∧
    msgOld.author_id ≠ 7 ∧
    ((!msgOld.has_content && !msgOld.has_attachments) || !msgOld.type_ok)
      = false ∧
    msgOld.created_at < 0 - rowW.max_age ∧
    ((star_message envW 2 0 chOrigin 6 7 stateWOld).1 = .error .tooOld ∧
     (star_message envW 2 0 chOrigin 6 7 stateWOld).2.entries
       = stateWOld.entries ∧
     (star_message envW 2 0 chOrigin 6 7 stateWOld).2.starrers
       = stateWOld.starrers ∧
     (star_message envW 2 0 chOrigin 6 7 stateWOld).2.msgs = stateWOld.msgs ∧
     (star_message envW 2 0 chOrigin 6 7 stateWOld).2.aboutToBeDeleted
       = stateWOld.aboutToBeDeleted ∧
     (star_message envW 2 0 chOrigin 6 7 stateWOld).2.nextEntryId
       = stateWOld.nextEntryId ∧
     (star_message envW 2 0 chOrigin 6 7 stateWOld).2.nextMsgId
       = stateWOld.nextMsgId) :=
  ⟨by decide, by decide, by decide, by decide, by decide, by decide, by decide,
   by decide, by decide,
   star_too_old envW 1 0 chOrigin 6 7 stateWOld rowW chBoard msgOld
     (by decide) (by decide) (by decide) (by decide) (by decide) (by decide)
     (by decide) (by decide) (by decide)⟩

end Stars

namespace Stars

/- Further helper lemmas: `get_message` only touches the cache, and the
entry/message list mutators behave pointwise. -/

theorem gm_entries (c m : Nat) (s' : State) :
    ((get_message c m s').2).entries = s'.entries := by
  obtain ⟨k, hk⟩ := get_message_spec c m s'
  rw [hk]

theorem gm_starrers (c m : Nat) (s' : State) :
    ((get_message c m s').2).starrers = s'.starrers := by
  obtain ⟨k, hk⟩ := get_message_spec c m s'
  rw [hk]

theorem gm_msgs (c m : Nat) (s' : State) :
    ((get_message c m s').2).msgs = s'.msgs := by
  obtain ⟨k, hk⟩ := get_message_spec c m s'
  rw [hk]

theorem gm_about (c m : Nat) (s' : State) :
    ((get_message c m s').2).aboutToBeDeleted = s'.aboutToBeDeleted := by
  obtain ⟨k, hk⟩ := get_message_spec c m s'
  rw [hk]

theorem gm_nextEntryId (c m : Nat) (s' : State) :
    ((get_message c m s').2).nextEntryId = s'.nextEntryId := by
  obtain ⟨k, hk⟩ := get_message_spec c m s'
  rw [hk]

theorem gm_nextMsgId (c m : Nat) (s' : State) :
    ((get_message c m s').2).nextMsgId = s'.nextMsgId := by
  obtain ⟨k, hk⟩ := get_message_spec c m s'
  rw [hk]

theorem fetchM_cases {s : State} {c m : Nat} {res : Option Msg}
    (h : fetchM s c m = res) :
    lookupCache s.cache m = res ∨
      (lookupCache s.cache m = none ∧ fetchWorld s.msgs c m = res) := by
  unfold fetchM at h
  cases hl : lookupCache s.cache m with
  | some x => rw [hl] at h; exact .inl h
  | none => rw [hl] at h; exact .inr ⟨rfl, h⟩

theorem deleteWorldMsg_not_mem (msgs : List Msg) (bm : Nat) :
    ∀ m ∈ deleteWorldMsg msgs bm, m.id ≠ bm := by
  intro m hm
  have := (List.mem_filter.mp hm).2
  simpa using this

theorem deleteEntryById_not_mem (l : List Entry) (eid : Nat) :
    ∀ e2 ∈ deleteEntryById l eid, e2.id ≠ eid := by
  intro e2 he
  have := (List.mem_filter.mp he).2
  simpa using this

theorem setBotNull_nulled (l : List Entry) (eid : Nat) :
    ∀ e2 ∈ setBotNullByEntryId l eid, e2.id = eid → e2.bot_message_id = none := by
  intro e2 he hid
  simp only [setBotNullByEntryId, List.mem_map] at he
  obtain ⟨y, hy, hey⟩ := he
  by_cases h : y.id = eid
  · rw [← hey]
    simp [h]
  · rw [← hey] at hid
    rw [if_neg h] at hid
    exact absurd hid h

theorem editWorldMsg_shows (msgs : List Msg) (bm cnt : Nat) :
    ∀ m ∈ editWorldMsg msgs bm cnt, m.id = bm → m.stars_shown = cnt := by
  intro m hm hid
  simp only [editWorldMsg, List.mem_map] at hm
  obtain ⟨y, hy, hey⟩ := hm
  by_cases h : y.id = bm
  · rw [← hey]
    simp [h]
  · rw [← hey] at hid
    rw [if_neg h] at hid
    exact absurd hid h

/-- With the call channel distinct from the starboard channel, no
redirect recursion happens and the fuel value is irrelevant. -/
theorem star_message_fuel_congr (env : Env) (now : Int) (ch : Channel)
    (mid sid : Nat) (s : State)
    (hch : ∀ r sb, resolveStarboard env = some (r, sb) → ch.id ≠ sb.id)
    (f g : Nat) :
    star_message env (f + 1) now ch mid sid s
      = star_message env (g + 1) now ch mid sid s := by
  cases hres : resolveStarboard env with
  | none => simp [star_message, hres]
  | some rsb =>
    obtain ⟨r, sb⟩ := rsb
    have h := hch r sb hres
    simp [star_message, hres, h]

/-- Fuel-irrelevance for `unstar_message` off the starboard channel. -/
theorem unstar_message_fuel_congr (env : Env) (ch : Channel)
    (mid sid : Nat) (s : State)
    (hch : ∀ r sb, resolveStarboard env = some (r, sb) → ch.id ≠ sb.id)
    (f g : Nat) :
    unstar_message env (f + 1) ch mid sid s
      = unstar_message env (g + 1) ch mid sid s := by
  cases hres : resolveStarboard env with
  | none => simp [unstar_message, hres]
  | some rsb =>
    obtain ⟨r, sb⟩ := rsb
    have h := hch r sb hres
    simp [unstar_message, hres, h]

end Stars

namespace Stars

/-- C4: star/unstar on a mirror message's id in the starboard channel:
when no entry has that `bot_message_id`, both operations fail NotFound
with the state unchanged; when such an entry exists and its origin
channel resolves to a non-starboard channel, both operations produce a
result and final state identical to the same operation invoked
directly on the origin channel and message, and the redirect is
exactly one recursion step (one fuel unfolding reaches the direct
call, which is itself fuel-insensitive). -/
theorem star_unstar_redirect (env : Env) (now : Int) (sid : Nat) (s : State)
    (r : SBRow) (sb : Channel)
    (hres : resolveStarboard env = some (r, sb))
    (hlock : r.locked = false) :
    (∀ mid, findEntryByBot s.entries mid = none →
      (∀ f, star_message env (f + 1) now sb mid sid s
          = (.error .redirectNotFound, s)) ∧
      (∀ f, unstar_message env (f + 1) sb mid sid s
          = (.error .redirectNotFound, s))) ∧
    (∀ mid e och, findEntryByBot s.entries mid = some e →
      getChannel env e.channel_id = some och → och.id ≠ sb.id →
      (∀ f g, star_message env (f + 2) now sb mid sid s
          = star_message env (g + 1) now och e.message_id sid s) ∧
      (∀ f g, unstar_message env (f + 2) sb mid sid s
          = unstar_message env (g + 1) och e.message_id sid s)) := by
  constructor
  · intro mid hnone
    constructor
    · intro f
      simp [star_message, hres, hlock, hnone]
    · intro f
      simp [unstar_message, hres, hlock, hnone]
  · intro mid e och hfind hgc hne
    have hch : ∀ r2 sb2, resolveStarboard env = some (r2, sb2) → och.id ≠ sb2.id := by
      intro r2 sb2 hres2
      rw [hres] at hres2
      cases hres2
      exact hne
    constructor
    · intro f g
      have h1 : star_message env (f + 1 + 1) now sb mid sid s
          = star_message env (f + 1) now och e.message_id sid s := by
        simp [star_message, hres, hlock, hfind, hgc]
      rw [show f + 2 = f + 1 + 1 from rfl, h1]
      exact star_message_fuel_congr env now och e.message_id sid s hch f g
    · intro f g
      have h1 : unstar_message env (f + 1 + 1) sb mid sid s
          = unstar_message env (f + 1) och e.message_id sid s := by
        simp [unstar_message, hres, hlock, hfind, hgc]
      rw [show f + 2 = f + 1 + 1 from rfl, h1]
      exact unstar_message_fuel_congr env och e.message_id sid s hch f g

/-- Witness for C4 on the published scenario: mirror 99 redirects to
origin message 5 in channel 10. -/
theorem star_unstar_redirect_witness :
    resolveStarboard envW = some (rowW, chBoard) ∧ rowW.locked = false ∧
    ((∀ mid, findEntryByBot stateWPub.entries mid = none →
      (∀ f, star_message envW (f + 1) 0 chBoard mid 7 stateWPub
          = (.error .redirectNotFound, stateWPub)) ∧
      (∀ f, unstar_message envW (f + 1) chBoard mid 7 stateWPub
          = (.error .redirectNotFound, stateWPub))) ∧
    (∀ mid e och, findEntryByBot stateWPub.entries mid = some e →
      getChannel envW e.channel_id = some och → och.id ≠ chBoard.id →
      (∀ f g, star_message envW (f + 2) 0 chBoard mid 7 stateWPub
          = star_message envW (g + 1) 0 och e.message_id 7 stateWPub) ∧
      (∀ f g, unstar_message envW (f + 2) chBoard mid 7 stateWPub
          = unstar_message envW (g + 1) och e.message_id 7 stateWPub))) :=
  ⟨by decide, by decide,
   star_unstar_redirect envW 0 7 stateWPub rowW chBoard (by decide) (by decide)⟩

end Stars

namespace Stars

theorem gm_fst (c m : Nat) (s' : State) :
    (get_message c m s').1 = fetchM s' c m := by
  obtain ⟨k, hk⟩ := get_message_spec c m s'
  rw [hk]

theorem gm_pair_entries {c m : Nat} {s' : State} {o : Option Msg} {s3 : State}
    (h : get_message c m s' = (o, s3)) : s3.entries = s'.entries := by
  have h2 : (get_message c m s').2 = s3 := by rw [h]
  rw [← h2]
  exact gm_entries c m s'

theorem gm_pair_starrers {c m : Nat} {s' : State} {o : Option Msg} {s3 : State}
    (h : get_message c m s' = (o, s3)) : s3.starrers = s'.starrers := by
  have h2 : (get_message c m s').2 = s3 := by rw [h]
  rw [← h2]
  exact gm_starrers c m s'

theorem gm_pair_msgs {c m : Nat} {s' : State} {o : Option Msg} {s3 : State}
    (h : get_message c m s' = (o, s3)) : s3.msgs = s'.msgs := by
  have h2 : (get_message c m s').2 = s3 := by rw [h]
  rw [← h2]
  exact gm_msgs c m s'

theorem gm_pair_about {c m : Nat} {s' : State} {o : Option Msg} {s3 : State}
    (h : get_message c m s' = (o, s3)) :
    s3.aboutToBeDeleted = s'.aboutToBeDeleted := by
  have h2 : (get_message c m s').2 = s3 := by rw [h]
  rw [← h2]
  exact gm_about c m s'

theorem lookupCache_cons_ne {c : List (Nat × Msg)} {k : Nat} {v : Msg} {m : Nat}
    (h : k ≠ m) : lookupCache ((k, v) :: c) m = lookupCache c m := by
  unfold lookupCache
  rw [List.find?_cons_of_neg]
  simp [h]

end Stars

namespace Stars

/-- C5: an unstar call past the config, lock, redirect and permission
checks.  With no entry or no starrer pair for this user it fails
NotStarred with the state unchanged.  Otherwise the pair is deleted
(in every outcome), and with count the recomputed star count: if
count = 0 the entry row is deleted; if the entry had a mirror and
count is below the threshold (mirror fetchable), the mirror id is
recorded in the pending-self-deletion set, `bot_message_id` is nulled
on the entry whenever the entry still exists, and the mirror message
is deleted from the platform; if count is still at or above the
(positive) threshold (mirror and origin fetchable), the mirror message
is instead edited to display the updated count, with the
pending-self-deletion set untouched. -/
theorem unstar_main_path (env : Env) (fuel : Nat) (channel : Channel)
    (mid sid : Nat) (s : State) (r : SBRow) (sb : Channel)
    (hres : resolveStarboard env = some (r, sb))
    (hlock : r.locked = false)
    (hch : channel.id ≠ sb.id)
    (hperm : env.canSend = true) :
    (findEntryByMsg s.entries mid = none →
      unstar_message env (fuel + 1) channel mid sid s
        = (.error .notStarred, s)) ∧
    (∀ e, findEntryByMsg s.entries mid = some e → (sid, e.id) ∉ s.starrers →
      unstar_message env (fuel + 1) channel mid sid s
        = (.error .notStarred, s)) ∧
    (∀ e, findEntryByMsg s.entries mid = some e → (sid, e.id) ∈ s.starrers →
      (unstar_message env (fuel + 1) channel mid sid s).2.starrers
        = removeStarrer s.starrers sid e.id ∧
      (countStars (removeStarrer s.starrers sid e.id) e.id = 0 →
        ∀ e2 ∈ (unstar_message env (fuel + 1) channel mid sid s).2.entries,
          e2.id ≠ e.id) ∧
      (∀ bm, e.bot_message_id = some bm →
        countStars (removeStarrer s.starrers sid e.id) e.id < r.threshold →
        ∀ bmsg, fetchM s sb.id bm = some bmsg →
          (unstar_message env (fuel + 1) channel mid sid s).1 = .ok () ∧
          bm ∈ (unstar_message env (fuel + 1) channel mid sid s).2.aboutToBeDeleted ∧
          (∀ e2 ∈ (unstar_message env (fuel + 1) channel mid sid s).2.entries,
            e2.id = e.id → e2.bot_message_id = none) ∧
          (∀ m ∈ (unstar_message env (fuel + 1) channel mid sid s).2.msgs,
            m.id ≠ bm)) ∧
      (∀ bm, e.bot_message_id = some bm → 0 < r.threshold →
        r.threshold ≤ countStars (removeStarrer s.starrers sid e.id) e.id →
        ∀ bmsg, fetchM s sb.id bm = some bmsg → mid ≠ bm →
        ∀ omsg, fetchM s channel.id mid = some omsg →
          (unstar_message env (fuel + 1) channel mid sid s).1 = .ok () ∧
          (∀ m ∈ (unstar_message env (fuel + 1) channel mid sid s).2.msgs,
            m.id = bm → m.stars_shown
              = countStars (removeStarrer s.starrers sid e.id) e.id) ∧
          (unstar_message env (fuel + 1) channel mid sid s).2.aboutToBeDeleted
            = s.aboutToBeDeleted)) := by
  refine ⟨?_, ?_, ?_⟩
  · intro hnone
    simp [unstar_message, hres, hlock, hch, hperm, hnone]
  · intro e hfind hnp
    simp [unstar_message, hres, hlock, hch, hperm, hfind, hnp]
  · intro e hfind hpair
    refine ⟨?_, ?_, ?_, ?_⟩
    · -- the starrer pair is removed in every branch
      simp [unstar_message, hres, hlock, hch, hperm, hfind, hpair]
      split
      · split <;> rfl
      · rename_i bmid hbot
        split
        · rename_i s3 heq
          show s3.starrers = removeStarrer s.starrers sid e.id
          rw [gm_pair_starrers heq]
          split <;> rfl
        · rename_i val s3 heq
          split
          · dsimp only
            split <;> (rw [gm_pair_starrers heq]; split <;> rfl)
          · split
            · rename_i s4 heq2
              show s4.starrers = removeStarrer s.starrers sid e.id
              rw [gm_pair_starrers heq2, gm_pair_starrers heq]
              split <;> rfl
            · rename_i val2 s4 heq2
              show s4.starrers = removeStarrer s.starrers sid e.id
              rw [gm_pair_starrers heq2, gm_pair_starrers heq]
              split <;> rfl
    · -- count = 0: the entry row is gone
      intro hc
      simp [unstar_message, hres, hlock, hch, hperm, hfind, hpair, hc]
      split
      · intro e2 he2
        exact deleteEntryById_not_mem s.entries e.id e2 he2
      · rename_i bmid hbot
        split
        · rename_i s3 heq
          intro e2 he2
          show e2.id ≠ e.id
          rw [gm_pair_entries heq] at he2
          exact deleteEntryById_not_mem s.entries e.id e2 he2
        · rename_i val s3 heq
          split
          · intro e2 he2
            show e2.id ≠ e.id
            rw [gm_pair_entries heq] at he2
            exact deleteEntryById_not_mem s.entries e.id e2 he2
          · split
            · rename_i s4 heq2
              intro e2 he2
              show e2.id ≠ e.id
              rw [gm_pair_entries heq2, gm_pair_entries heq] at he2
              exact deleteEntryById_not_mem s.entries e.id e2 he2
            · rename_i val2 s4 heq2
              intro e2 he2
              show e2.id ≠ e.id
              rw [gm_pair_entries heq2, gm_pair_entries heq] at he2
              exact deleteEntryById_not_mem s.entries e.id e2 he2
    · -- mirror present, count below threshold
      intro bm hbot hthr bmsg hmirror
      by_cases hc : countStars (removeStarrer s.starrers sid e.id) e.id = 0
      · have hthr0 : 0 < r.threshold := by omega
        obtain ⟨k, hk⟩ := get_message_spec sb.id bm
          { entries := deleteEntryById s.entries e.id,
            starrers := removeStarrer s.starrers sid e.id,
            nextEntryId := s.nextEntryId, msgs := s.msgs, cache := s.cache,
            aboutToBeDeleted := s.aboutToBeDeleted, nextMsgId := s.nextMsgId }
        rw [show fetchM
            { entries := deleteEntryById s.entries e.id,
              starrers := removeStarrer s.starrers sid e.id,
              nextEntryId := s.nextEntryId, msgs := s.msgs, cache := s.cache,
              aboutToBeDeleted := s.aboutToBeDeleted, nextMsgId := s.nextMsgId }
            sb.id bm = some bmsg from hmirror] at hk
        have hcall : unstar_message env (fuel + 1) channel mid sid s
            = (.ok (),
               { entries := deleteEntryById s.entries e.id,
                 starrers := removeStarrer s.starrers sid e.id,
                 nextEntryId := s.nextEntryId,
                 msgs := deleteWorldMsg s.msgs bm, cache := k,
                 aboutToBeDeleted := bm :: s.aboutToBeDeleted,
                 nextMsgId := s.nextMsgId }) := by
          simp [unstar_message, hres, hlock, hch, hperm, hfind, hpair, hbot,
                hc, hthr, hthr0, hk]
        refine ⟨?_, ?_, ?_, ?_⟩
        · rw [hcall]
        · rw [hcall]
          exact List.mem_cons_self _ _
        · rw [hcall]
          intro e2 he2 hid
          exact absurd hid (deleteEntryById_not_mem s.entries e.id e2 he2)
        · rw [hcall]
          exact deleteWorldMsg_not_mem s.msgs bm
      · obtain ⟨k, hk⟩ := get_message_spec sb.id bm
          { entries := s.entries,
            starrers := removeStarrer s.starrers sid e.id,
            nextEntryId := s.nextEntryId, msgs := s.msgs, cache := s.cache,
            aboutToBeDeleted := s.aboutToBeDeleted, nextMsgId := s.nextMsgId }
        rw [show fetchM
            { entries := s.entries,
              starrers := removeStarrer s.starrers sid e.id,
              nextEntryId := s.nextEntryId, msgs := s.msgs, cache := s.cache,
              aboutToBeDeleted := s.aboutToBeDeleted, nextMsgId := s.nextMsgId }
            sb.id bm = some bmsg from hmirror] at hk
        have hcall : unstar_message env (fuel + 1) channel mid sid s
            = (.ok (),
               { entries := setBotNullByEntryId s.entries e.id,
                 starrers := removeStarrer s.starrers sid e.id,
                 nextEntryId := s.nextEntryId,
                 msgs := deleteWorldMsg s.msgs bm, cache := k,
                 aboutToBeDeleted := bm :: s.aboutToBeDeleted,
                 nextMsgId := s.nextMsgId }) := by
          simp [unstar_message, hres, hlock, hch, hperm, hfind, hpair, hbot,
                hc, hthr, hk]
        refine ⟨?_, ?_, ?_, ?_⟩
        · rw [hcall]
        · rw [hcall]
          exact List.mem_cons_self _ _
        · rw [hcall]
          exact setBotNull_nulled s.entries e.id
        · rw [hcall]
          exact deleteWorldMsg_not_mem s.msgs bm
    · -- mirror present, count still at or above the positive threshold
      intro bm hbot hpos hthr bmsg hmirror hmb omsg horigin
      have hc : countStars (removeStarrer s.starrers sid e.id) e.id ≠ 0 := by
        omega
      have hnlt : ¬ countStars (removeStarrer s.starrers sid e.id) e.id
          < r.threshold := by omega
      rcases fetchM_cases hmirror with hl | ⟨hl, hw⟩
      · have hk : get_message sb.id bm
            { entries := s.entries,
              starrers := removeStarrer s.starrers sid e.id,
              nextEntryId := s.nextEntryId, msgs := s.msgs, cache := s.cache,
              aboutToBeDeleted := s.aboutToBeDeleted, nextMsgId := s.nextMsgId }
            = (some bmsg,
               { entries := s.entries,
                 starrers := removeStarrer s.starrers sid e.id,
                 nextEntryId := s.nextEntryId, msgs := s.msgs, cache := s.cache,
                 aboutToBeDeleted := s.aboutToBeDeleted,
                 nextMsgId := s.nextMsgId }) := by
          simp [get_message, hl]
        obtain ⟨k2, hk2⟩ := get_message_spec channel.id mid
          { entries := s.entries,
            starrers := removeStarrer s.starrers sid e.id,
            nextEntryId := s.nextEntryId, msgs := s.msgs, cache := s.cache,
            aboutToBeDeleted := s.aboutToBeDeleted, nextMsgId := s.nextMsgId }
        rw [show fetchM
            { entries := s.entries,
              starrers := removeStarrer s.starrers sid e.id,
              nextEntryId := s.nextEntryId, msgs := s.msgs, cache := s.cache,
              aboutToBeDeleted := s.aboutToBeDeleted, nextMsgId := s.nextMsgId }
            channel.id mid = some omsg from horigin] at hk2
        have hcall : unstar_message env (fuel + 1) channel mid sid s
            = (.ok (),
               { entries := s.entries,
                 starrers := removeStarrer s.starrers sid e.id,
                 nextEntryId := s.nextEntryId,
                 msgs := editWorldMsg s.msgs bm
                   (countStars (removeStarrer s.starrers sid e.id) e.id),
                 cache := k2,
                 aboutToBeDeleted := s.aboutToBeDeleted,
                 nextMsgId := s.nextMsgId }) := by
          simp [unstar_message, hres, hlock, hch, hperm, hfind, hpair, hbot,
                hc, hnlt, hk, hk2]
        refine ⟨?_, ?_, ?_⟩
        · rw [hcall]
        · rw [hcall]
          exact editWorldMsg_shows s.msgs bm _
        · rw [hcall]
      · have hk : get_message sb.id bm
            { entries := s.entries,
              starrers := removeStarrer s.starrers sid e.id,
              nextEntryId := s.nextEntryId, msgs := s.msgs, cache := s.cache,
              aboutToBeDeleted := s.aboutToBeDeleted, nextMsgId := s.nextMsgId }
            = (some bmsg,
               { entries := s.entries,
                 starrers := removeStarrer s.starrers sid e.id,
                 nextEntryId := s.nextEntryId, msgs := s.msgs,
                 cache := (bm, bmsg) :: s.cache,
                 aboutToBeDeleted := s.aboutToBeDeleted,
                 nextMsgId := s.nextMsgId }) := by
          simp [get_message, hl, hw]
        have hfx : fetchM
            { entries := s.entries,
              starrers := removeStarrer s.starrers sid e.id,
              nextEntryId := s.nextEntryId, msgs := s.msgs,
              cache := (bm, bmsg) :: s.cache,
              aboutToBeDeleted := s.aboutToBeDeleted,
              nextMsgId := s.nextMsgId } channel.id mid = some omsg := by
          have h1 : lookupCache ((bm, bmsg) :: s.cache) mid
              = lookupCache s.cache mid := lookupCache_cons_ne (Ne.symm hmb)
          unfold fetchM
          rw [show lookupCache
              ({ entries := s.entries,
                 starrers := removeStarrer s.starrers sid e.id,
                 nextEntryId := s.nextEntryId, msgs := s.msgs,
                 cache := (bm, bmsg) :: s.cache,
                 aboutToBeDeleted := s.aboutToBeDeleted,
                 nextMsgId := s.nextMsgId } : State).cache mid
              = lookupCache s.cache mid from h1]
          have h2 := horigin
          unfold fetchM at h2
          exact h2
        obtain ⟨k2, hk2⟩ := get_message_spec channel.id mid
          { entries := s.entries,
            starrers := removeStarrer s.starrers sid e.id,
            nextEntryId := s.nextEntryId, msgs := s.msgs,
            cache := (bm, bmsg) :: s.cache,
            aboutToBeDeleted := s.aboutToBeDeleted, nextMsgId := s.nextMsgId }
        rw [hfx] at hk2
        have hcall : unstar_message env (fuel + 1) channel mid sid s
            = (.ok (),
               { entries := s.entries,
                 starrers := removeStarrer s.starrers sid e.id,
                 nextEntryId := s.nextEntryId,
                 msgs := editWorldMsg s.msgs bm
                   (countStars (removeStarrer s.starrers sid e.id) e.id),
                 cache := k2,
                 aboutToBeDeleted := s.aboutToBeDeleted,
                 nextMsgId := s.nextMsgId }) := by
          simp [unstar_message, hres, hlock, hch, hperm, hfind, hpair, hbot,
                hc, hnlt, hk, hk2]
        refine ⟨?_, ?_, ?_⟩
        · rw [hcall]
        · rw [hcall]
          exact editWorldMsg_shows s.msgs bm _
        · rw [hcall]

end Stars

namespace Stars

/-- Witness for C5, on the published two-starrer scenario. -/
theorem unstar_main_path_witness :
    resolveStarboard envW = some (rowW, chBoard) ∧ rowW.locked = false ∧
    chOrigin.id ≠ chBoard.id ∧ envW.canSend = true ∧
    ((findEntryByMsg stateWPub.entries 5 = none →
      unstar_message envW 2 chOrigin 5 7 stateWPub
        = (.error .notStarred, stateWPub)) ∧
    (∀ e, findEntryByMsg stateWPub.entries 5 = some e →
      (7, e.id) ∉ stateWPub.starrers →
      unstar_message envW 2 chOrigin 5 7 stateWPub
        = (.error .notStarred, stateWPub)) ∧
    (∀ e, findEntryByMsg stateWPub.entries 5 = some e →
      (7, e.id) ∈ stateWPub.starrers →
      (unstar_message envW 2 chOrigin 5 7 stateWPub).2.starrers
        = removeStarrer stateWPub.starrers 7 e.id ∧
      (countStars (removeStarrer stateWPub.starrers 7 e.id) e.id = 0 →
        ∀ e2 ∈ (unstar_message envW 2 chOrigin 5 7 stateWPub).2.entries,
          e2.id ≠ e.id) ∧
      (∀ bm, e.bot_message_id = some bm →
        countStars (removeStarrer stateWPub.starrers 7 e.id) e.id
          < rowW.threshold →
        ∀ bmsg, fetchM stateWPub chBoard.id bm = some bmsg →
          (unstar_message envW 2 chOrigin 5 7 stateWPub).1 = .ok () ∧
          bm ∈ (unstar_message envW 2 chOrigin 5 7 stateWPub).2.aboutToBeDeleted ∧
          (∀ e2 ∈ (unstar_message envW 2 chOrigin 5 7 stateWPub).2.entries,
            e2.id = e.id → e2.bot_message_id = none) ∧
          (∀ m ∈ (unstar_message envW 2 chOrigin 5 7 stateWPub).2.msgs,
            m.id ≠ bm)) ∧
      (∀ bm, e.bot_message_id = some bm → 0 < rowW.threshold →
        rowW.threshold ≤ countStars (removeStarrer stateWPub.starrers 7 e.id) e.id →
        ∀ bmsg, fetchM stateWPub chBoard.id bm = some bmsg → 5 ≠ bm →
        ∀ omsg, fetchM stateWPub chOrigin.id 5 = some omsg →
          (unstar_message envW 2 chOrigin 5 7 stateWPub).1 = .ok () ∧
          (∀ m ∈ (unstar_message envW 2 chOrigin 5 7 stateWPub).2.msgs,
            m.id = bm → m.stars_shown
              = countStars (removeStarrer stateWPub.starrers 7 e.id) e.id) ∧
          (unstar_message envW 2 chOrigin 5 7 stateWPub).2.aboutToBeDeleted
            = stateWPub.aboutToBeDeleted))) :=
  ⟨by decide, by decide, by decide, by decide,
   unstar_main_path envW 1 chOrigin 5 7 stateWPub rowW chBoard
     (by decide) (by decide) (by decide) (by decide)⟩

end Stars

namespace Stars

theorem threshOf_eq {env : Env} {r : SBRow} {sb : Channel}
    (h : resolveStarboard env = some (r, sb)) : threshOf env = r.threshold := by
  unfold resolveStarboard at h
  unfold threshOf
  cases hc : env.config with
  | none => simp [hc] at h
  | some r2 =>
    simp only [hc] at h ⊢
    cases hcid : r2.channel_id with
    | none => simp [hcid] at h
    | some cid =>
      simp only [hcid] at h
      cases hgc : getChannel env cid with
      | none => simp [hgc] at h
      | some c =>
        simp only [hgc, Option.map_some', Option.some.injEq,
                   Prod.mk.injEq] at h
        rw [h.1]

theorem resolve_det {env : Env} {r : SBRow} {sb : Channel}
    {rsb : SBRow × Channel} (h1 : resolveStarboard env = some (r, sb))
    (h2 : resolveStarboard env = some rsb) : rsb = (r, sb) := by
  rw [h1] at h2
  exact (Option.some.inj h2).symm

/-- `Inv` only depends on the store fields, the platform messages and
the serial counters — never on the cache or the pending set. -/
theorem inv_of_fields {env : Env} {s1 s2 : State} (h : Inv env s1)
    (he : s2.entries = s1.entries) (hst : s2.starrers = s1.starrers)
    (hne : s2.nextEntryId = s1.nextEntryId) (hm : s2.msgs = s1.msgs)
    (hnm : s2.nextMsgId = s1.nextMsgId) : Inv env s2 := by
  refine ⟨?_, ?_, ?_, ?_, ?_, ?_, ?_, ?_, ?_⟩ <;>
    simp only [he, hst, hne, hm, hnm] <;>
    first
    | exact h.entry_msg_inj
    | exact h.entry_id_inj
    | exact h.entry_id_lt
    | exact h.starrer_lt
    | exact h.starrer_nodup
    | exact h.bot_lt
    | exact h.bot_live
    | exact h.bot_inj
    | exact h.mirror

theorem inv_of_gm {env : Env} {s s3 : State} {c m : Nat} {o : Option Msg}
    (h : Inv env s) (heq : get_message c m s = (o, s3)) : Inv env s3 :=
  inv_of_fields h (gm_pair_entries heq) (gm_pair_starrers heq)
    (by have h2 : (get_message c m s).2 = s3 := by rw [heq]
        rw [← h2]; exact gm_nextEntryId c m s)
    (gm_pair_msgs heq)
    (by have h2 : (get_message c m s).2 = s3 := by rw [heq]
        rw [← h2]; exact gm_nextMsgId c m s)

theorem countStars_remove_other {l : List (Nat × Nat)} {sid eid j : Nat}
    (h : j ≠ eid) :
    countStars (removeStarrer l sid eid) j = countStars l j := by
  induction l with
  | nil => rfl
  | cons hd tl ih =>
    obtain ⟨a, b⟩ := hd
    by_cases hp : (a == sid && b == eid) = true
    · have hab : a = sid ∧ b = eid := by simpa using hp
      have hdrop : removeStarrer ((a, b) :: tl) sid eid
          = removeStarrer tl sid eid := by
        simp only [removeStarrer, List.filter_cons, hp, Bool.not_true]
        rfl
      rw [hdrop, ih, countStars_cons, if_neg (by omega)]
      omega
    · have hp2 : (a == sid && b == eid) = false := by simpa using hp
      have hkeep : removeStarrer ((a, b) :: tl) sid eid
          = (a, b) :: removeStarrer tl sid eid := by
        simp only [removeStarrer, List.filter_cons, hp2, Bool.not_false]
        rfl
      rw [hkeep, countStars_cons, countStars_cons, ih]

theorem countStars_remove_le (l : List (Nat × Nat)) (sid eid j : Nat) :
    countStars (removeStarrer l sid eid) j ≤ countStars l j := by
  unfold countStars removeStarrer
  exact List.Sublist.countP_le _ (List.filter_sublist l)

theorem findEntryByMsg_cons_self {l : List Entry} {e : Entry} {mid : Nat}
    (h : e.message_id = mid) : findEntryByMsg (e :: l) mid = some e := by
  unfold findEntryByMsg
  rw [List.find?_cons_of_pos]
  simp [h]

theorem fetchWorld_some_of_witness {msgs : List Msg} {bm cid : Nat}
    (m : Msg) (hm : m ∈ msgs) (hid : m.id = bm) (hch : m.channel_id = cid) :
    fetchWorld msgs cid bm ≠ none := by
  unfold fetchWorld
  intro hnone
  have h2 := List.find?_eq_none.mp hnone m hm
  simp [hid, hch] at h2

end Stars

namespace Stars

/-- Deleting a starrer pair preserves the invariant when the entry's
mirror situation stays consistent: either it had no mirror (the count
only drops), or the new count is still at or above threshold. -/
theorem inv_remove (env : Env) {s : State} (h : Inv env s) {e : Entry}
    (he : e ∈ s.entries) (sid : Nat)
    (hcase : e.bot_message_id = none ∨
      (e.bot_message_id ≠ none ∧
        threshOf env ≤ countStars (removeStarrer s.starrers sid e.id) e.id)) :
    Inv env { s with starrers := removeStarrer s.starrers sid e.id } := by
  refine ⟨h.entry_msg_inj, h.entry_id_inj, h.entry_id_lt, ?_, ?_,
          h.bot_lt, h.bot_live, h.bot_inj, ?_⟩
  · intro p hp
    exact h.starrer_lt p (List.mem_of_mem_filter hp)
  · exact h.starrer_nodup.filter _
  · intro e' he'
    by_cases hid : e'.id = e.id
    · have hee : e' = e := h.entry_id_inj e' he' e he hid
      rw [hee]
      rcases hcase with hnone | ⟨hne, hge⟩
      · have hold := h.mirror e he
        rw [hnone] at hold
        simp only [ne_eq, not_true_eq_false, false_iff, not_le] at hold
        rw [hnone]
        simp only [ne_eq, not_true_eq_false, false_iff, not_le]
        have hle := countStars_remove_le s.starrers sid e.id e.id
        omega
      · exact ⟨fun _ => hge, fun _ => hne⟩
    · rw [countStars_remove_other hid]
      exact h.mirror e' he'

/-- Deleting the starrer pair and then the whole entry row preserves
the invariant (the `count == 0` path of unstar). -/
theorem inv_remove_delete (env : Env) {s : State} (h : Inv env s) {e : Entry}
    (sid : Nat) :
    Inv env { s with entries := deleteEntryById s.entries e.id,
                     starrers := removeStarrer s.starrers sid e.id } := by
  have hmem : ∀ x ∈ deleteEntryById s.entries e.id, x ∈ s.entries :=
    fun x hx => List.mem_of_mem_filter hx
  refine ⟨?_, ?_, ?_, ?_, ?_, ?_, ?_, ?_, ?_⟩
  · intro e1 h1 e2 h2
    exact h.entry_msg_inj e1 (hmem e1 h1) e2 (hmem e2 h2)
  · intro e1 h1 e2 h2
    exact h.entry_id_inj e1 (hmem e1 h1) e2 (hmem e2 h2)
  · intro e1 h1
    exact h.entry_id_lt e1 (hmem e1 h1)
  · intro p hp
    exact h.starrer_lt p (List.mem_of_mem_filter hp)
  · exact h.starrer_nodup.filter _
  · intro e1 h1
    exact h.bot_lt e1 (hmem e1 h1)
  · intro e1 h1
    exact h.bot_live e1 (hmem e1 h1)
  · intro e1 h1 e2 h2
    exact h.bot_inj e1 (hmem e1 h1) e2 (hmem e2 h2)
  · intro e' he'
    have hid : e'.id ≠ e.id := deleteEntryById_not_mem s.entries e.id e' he'
    rw [countStars_remove_other hid]
    exact h.mirror e' (hmem e' he')

/-- Deleting a platform message that no entry references as its mirror
preserves the invariant. -/
theorem inv_del_mirror (env : Env) {s : State} (h : Inv env s) {bm : Nat}
    (hno : ∀ e2 ∈ s.entries, e2.bot_message_id ≠ some bm) :
    Inv env { s with msgs := deleteWorldMsg s.msgs bm } := by
  refine ⟨h.entry_msg_inj, h.entry_id_inj, h.entry_id_lt, h.starrer_lt,
          h.starrer_nodup, h.bot_lt, ?_, h.bot_inj, h.mirror⟩
  intro e' he' bm' hbm' rsb hrsb
  obtain ⟨m, hm, hid, hch⟩ := h.bot_live e' he' bm' hbm' rsb hrsb
  refine ⟨m, ?_, hid, hch⟩
  refine List.mem_filter.mpr ⟨hm, ?_⟩
  have hne : bm' ≠ bm := fun hcontra => hno e' he' (hcontra ▸ hbm')
  simp [hid, hne]

/-- Editing a platform message in place (same id, same channel)
preserves the invariant. -/
theorem inv_edit (env : Env) {s : State} (h : Inv env s) (bm cnt : Nat) :
    Inv env { s with msgs := editWorldMsg s.msgs bm cnt } := by
  refine ⟨h.entry_msg_inj, h.entry_id_inj, h.entry_id_lt, h.starrer_lt,
          h.starrer_nodup, h.bot_lt, ?_, h.bot_inj, h.mirror⟩
  intro e' he' bm' hbm' rsb hrsb
  obtain ⟨m, hm, hid, hch⟩ := h.bot_live e' he' bm' hbm' rsb hrsb
  refine ⟨if m.id = bm then { m with stars_shown := cnt } else m, ?_, ?_, ?_⟩
  · exact List.mem_map.mpr ⟨m, hm, rfl⟩
  · split <;> simpa using hid
  · split <;> simpa using hch

/-- Purging an entry row by origin message id preserves the invariant
(the self-healing path of star). -/
theorem inv_purge (env : Env) {s : State} (h : Inv env s) (mid : Nat) :
    Inv env { s with entries := deleteEntryByMsg s.entries mid } := by
  have hmem : ∀ x ∈ deleteEntryByMsg s.entries mid, x ∈ s.entries :=
    fun x hx => List.mem_of_mem_filter hx
  refine ⟨?_, ?_, ?_, h.starrer_lt, h.starrer_nodup, ?_, ?_, ?_, ?_⟩
  · intro e1 h1 e2 h2
    exact h.entry_msg_inj e1 (hmem e1 h1) e2 (hmem e2 h2)
  · intro e1 h1 e2 h2
    exact h.entry_id_inj e1 (hmem e1 h1) e2 (hmem e2 h2)
  · intro e1 h1
    exact h.entry_id_lt e1 (hmem e1 h1)
  · intro e1 h1
    exact h.bot_lt e1 (hmem e1 h1)
  · intro e1 h1
    exact h.bot_live e1 (hmem e1 h1)
  · intro e1 h1 e2 h2
    exact h.bot_inj e1 (hmem e1 h1) e2 (hmem e2 h2)
  · intro e' he'
    exact h.mirror e' (hmem e' he')

end Stars

namespace Stars

/-- Nulling the entry's mirror reference after its count dropped below
threshold (together with the starrer removal) preserves the invariant. -/
theorem inv_null_below (env : Env) {s : State} (h : Inv env s) {e : Entry}
    (he : e ∈ s.entries) (sid : Nat)
    (hlt : countStars (removeStarrer s.starrers sid e.id) e.id < threshOf env) :
    Inv env { s with entries := setBotNullByEntryId s.entries e.id,
                     starrers := removeStarrer s.starrers sid e.id } := by
  have hmem : ∀ x ∈ setBotNullByEntryId s.entries e.id,
      ∃ y ∈ s.entries,
        x = if y.id = e.id then { y with bot_message_id := none } else y := by
    intro x hx
    obtain ⟨y, hy, hxy⟩ := List.mem_map.mp hx
    exact ⟨y, hy, hxy.symm⟩
  have hid_pres : ∀ y : Entry,
      (if y.id = e.id then { y with bot_message_id := none } else y).id
        = y.id := by
    intro y
    split <;> rfl
  have hmid_pres : ∀ y : Entry,
      (if y.id = e.id then { y with bot_message_id := none } else y).message_id
        = y.message_id := by
    intro y
    split <;> rfl
  refine ⟨?_, ?_, ?_, ?_, ?_, ?_, ?_, ?_, ?_⟩
  · intro e1 h1 e2 h2 hmid
    obtain ⟨y1, hy1, hx1⟩ := hmem e1 h1
    obtain ⟨y2, hy2, hx2⟩ := hmem e2 h2
    rw [hx1, hmid_pres y1] at hmid
    rw [hx2, hmid_pres y2] at hmid
    have h12 : y1 = y2 := h.entry_msg_inj y1 hy1 y2 hy2 hmid
    rw [hx1, hx2, h12]
  · intro e1 h1 e2 h2 hid
    obtain ⟨y1, hy1, hx1⟩ := hmem e1 h1
    obtain ⟨y2, hy2, hx2⟩ := hmem e2 h2
    rw [hx1, hid_pres y1] at hid
    rw [hx2, hid_pres y2] at hid
    have h12 : y1 = y2 := h.entry_id_inj y1 hy1 y2 hy2 hid
    rw [hx1, hx2, h12]
  · intro e1 h1
    obtain ⟨y, hy, hx⟩ := hmem e1 h1
    rw [hx, hid_pres y]
    exact h.entry_id_lt y hy
  · intro p hp
    exact h.starrer_lt p (List.mem_of_mem_filter hp)
  · exact h.starrer_nodup.filter _
  · intro e1 h1 bm hbm
    obtain ⟨y, hy, hx⟩ := hmem e1 h1
    rw [hx] at hbm
    by_cases hyid : y.id = e.id
    · rw [if_pos hyid] at hbm
      simp at hbm
    · rw [if_neg hyid] at hbm
      exact h.bot_lt y hy bm hbm
  · intro e1 h1 bm hbm rsb hrsb
    obtain ⟨y, hy, hx⟩ := hmem e1 h1
    rw [hx] at hbm
    by_cases hyid : y.id = e.id
    · rw [if_pos hyid] at hbm
      simp at hbm
    · rw [if_neg hyid] at hbm
      exact h.bot_live y hy bm hbm rsb hrsb
  · intro e1 h1 e2 h2 bm hb1 hb2
    obtain ⟨y1, hy1, hx1⟩ := hmem e1 h1
    obtain ⟨y2, hy2, hx2⟩ := hmem e2 h2
    rw [hx1] at hb1
    rw [hx2] at hb2
    by_cases hy1id : y1.id = e.id
    · rw [if_pos hy1id] at hb1
      simp at hb1
    by_cases hy2id : y2.id = e.id
    · rw [if_pos hy2id] at hb2
      simp at hb2
    rw [if_neg hy1id] at hb1
    rw [if_neg hy2id] at hb2
    have h12 := h.bot_inj y1 hy1 y2 hy2 bm hb1 hb2
    rw [hx1, hx2, if_neg hy1id, if_neg hy2id, h12]
  · intro e1 h1
    obtain ⟨y, hy, hx⟩ := hmem e1 h1
    by_cases hyid : y.id = e.id
    · have hye : y = e := h.entry_id_inj y hy e he hyid
      rw [hx, if_pos hyid]
      dsimp only
      rw [hye]
      simp only [ne_eq, not_true_eq_false, false_iff, not_le]
      exact hlt
    · rw [hx, if_neg hyid]
      rw [countStars_remove_other hyid]
      exact h.mirror y hy

/-- Inserting a starrer pair for an existing entry that stays below
threshold preserves the invariant. -/
theorem inv_cons_below (env : Env) {s : State} (h : Inv env s) {e : Entry}
    (he : e ∈ s.entries) {sid : Nat} (hp : (sid, e.id) ∉ s.starrers)
    (hlt : countStars ((sid, e.id) :: s.starrers) e.id < threshOf env) :
    Inv env { s with starrers := (sid, e.id) :: s.starrers } := by
  refine ⟨h.entry_msg_inj, h.entry_id_inj, h.entry_id_lt, ?_, ?_,
          h.bot_lt, h.bot_live, h.bot_inj, ?_⟩
  · intro p hp2
    rcases List.mem_cons.mp hp2 with hh | hh
    · rw [hh]
      exact h.entry_id_lt e he
    · exact h.starrer_lt p hh
  · exact h.starrer_nodup.cons hp
  · intro e' he'
    by_cases hid : e'.id = e.id
    · have hee : e' = e := h.entry_id_inj e' he' e he hid
      rw [hee]
      have hcnt : countStars ((sid, e.id) :: s.starrers) e.id
          = countStars s.starrers e.id + 1 := by
        rw [countStars_cons, if_pos rfl]
      have hold := h.mirror e he
      cases hbot : e.bot_message_id with
      | some bm =>
        rw [hbot] at hold
        have hge : threshOf env ≤ countStars s.starrers e.id :=
          hold.mp (by simp)
        exact absurd hlt (by omega)
      | none =>
        simp only [ne_eq, not_true_eq_false, false_iff, not_le]
        exact hlt
    · rw [countStars_cons, if_neg (fun hh => hid hh.symm), Nat.add_zero]
      exact h.mirror e' he'

/-- Inserting a starrer pair for an existing entry that already has a
mirror and stays at or above threshold preserves the invariant. -/
theorem inv_cons_above (env : Env) {s : State} (h : Inv env s) {e : Entry}
    (he : e ∈ s.entries) {sid : Nat} (hp : (sid, e.id) ∉ s.starrers)
    (hbot : e.bot_message_id ≠ none)
    (hge : threshOf env ≤ countStars ((sid, e.id) :: s.starrers) e.id) :
    Inv env { s with starrers := (sid, e.id) :: s.starrers } := by
  refine ⟨h.entry_msg_inj, h.entry_id_inj, h.entry_id_lt, ?_, ?_,
          h.bot_lt, h.bot_live, h.bot_inj, ?_⟩
  · intro p hp2
    rcases List.mem_cons.mp hp2 with hh | hh
    · rw [hh]
      exact h.entry_id_lt e he
    · exact h.starrer_lt p hh
  · exact h.starrer_nodup.cons hp
  · intro e' he'
    by_cases hid : e'.id = e.id
    · have hee : e' = e := h.entry_id_inj e' he' e he hid
      rw [hee]
      exact ⟨fun _ => hge, fun _ => hbot⟩
    · rw [countStars_cons, if_neg (fun hh => hid hh.symm), Nat.add_zero]
      exact h.mirror e' he'

/-- Creating a fresh entry together with its first starrer, staying
below threshold, preserves the invariant. -/
theorem inv_new_below (env : Env) {s : State} (h : Inv env s)
    {mid chId gId aId sid : Nat}
    (hf : findEntryByMsg s.entries mid = none)
    (hlt : countStars ((sid, s.nextEntryId) :: s.starrers) s.nextEntryId
      < threshOf env) :
    Inv env { s with
      entries := { id := s.nextEntryId, message_id := mid, channel_id := chId,
                   guild_id := gId, author_id := aId,
                   bot_message_id := none } :: s.entries,
      starrers := (sid, s.nextEntryId) :: s.starrers,
      nextEntryId := s.nextEntryId + 1 } := by
  have hnomid := findEntryByMsg_none hf
  refine ⟨?_, ?_, ?_, ?_, ?_, ?_, ?_, ?_, ?_⟩
  · intro e1 h1 e2 h2 hmid
    rcases List.mem_cons.mp h1 with hh1 | hh1 <;>
      rcases List.mem_cons.mp h2 with hh2 | hh2
    · rw [hh1, hh2]
    · rw [hh1] at hmid
      exact absurd hmid.symm (hnomid e2 hh2)
    · rw [hh2] at hmid
      exact absurd hmid (hnomid e1 hh1)
    · exact h.entry_msg_inj e1 hh1 e2 hh2 hmid
  · intro e1 h1 e2 h2 hid
    rcases List.mem_cons.mp h1 with hh1 | hh1 <;>
      rcases List.mem_cons.mp h2 with hh2 | hh2
    · rw [hh1, hh2]
    · rw [hh1] at hid
      dsimp only at hid
      have := h.entry_id_lt e2 hh2
      exfalso
      omega
    · rw [hh2] at hid
      dsimp only at hid
      have := h.entry_id_lt e1 hh1
      exfalso
      omega
    · exact h.entry_id_inj e1 hh1 e2 hh2 hid
  · intro e1 h1
    rcases List.mem_cons.mp h1 with hh | hh
    · rw [hh]
      dsimp only
      omega
    · have := h.entry_id_lt e1 hh
      dsimp only
      omega
  · intro p hp
    rcases List.mem_cons.mp hp with hh | hh
    · rw [hh]
      dsimp only
      omega
    · have := h.starrer_lt p hh
      dsimp only
      omega
  · refine h.starrer_nodup.cons ?_
    intro hmem
    have := h.starrer_lt _ hmem
    omega
  · intro e1 h1 bm hbm
    rcases List.mem_cons.mp h1 with hh | hh
    · rw [hh] at hbm
      simp at hbm
    · exact h.bot_lt e1 hh bm hbm
  · intro e1 h1 bm hbm rsb hrsb
    rcases List.mem_cons.mp h1 with hh | hh
    · rw [hh] at hbm
      simp at hbm
    · exact h.bot_live e1 hh bm hbm rsb hrsb
  · intro e1 h1 e2 h2 bm hb1 hb2
    rcases List.mem_cons.mp h1 with hh1 | hh1
    · rw [hh1] at hb1
      simp at hb1
    rcases List.mem_cons.mp h2 with hh2 | hh2
    · rw [hh2] at hb2
      simp at hb2
    exact h.bot_inj e1 hh1 e2 hh2 bm hb1 hb2
  · intro e1 h1
    rcases List.mem_cons.mp h1 with hh | hh
    · rw [hh]
      simp only [ne_eq, not_true_eq_false, false_iff, not_le]
      exact hlt
    · have hne : e1.id ≠ s.nextEntryId := by
        have := h.entry_id_lt e1 hh
        omega
      rw [countStars_cons, if_neg (fun hh2 => hne hh2.symm), Nat.add_zero]
      exact h.mirror e1 hh
end Stars

namespace Stars

/-- Publishing a fresh mirror message for an existing entry whose count
just reached the threshold preserves the invariant (starrer inserted,
mirror sent with a fresh id in the starboard channel, entry updated). -/
theorem inv_send_existing (env : Env) {s : State} (h : Inv env s)
    {r : SBRow} {sb : Channel}
    (hres : resolveStarboard env = some (r, sb)) {e : Entry} {mid sid : Nat}
    (hf : findEntryByMsg s.entries mid = some e)
    (hp : (sid, e.id) ∉ s.starrers)
    (hge : threshOf env ≤ countStars ((sid, e.id) :: s.starrers) e.id)
    (cnt : Nat) :
    Inv env { s with
      entries := setBotByMessageId s.entries mid (some s.nextMsgId),
      starrers := (sid, e.id) :: s.starrers,
      msgs := s.msgs ++ [mirrorMsg sb.id s.nextMsgId cnt],
      nextMsgId := s.nextMsgId + 1 } := by
  obtain ⟨he, hemid⟩ := findEntryByMsg_some hf
  have hmem : ∀ x ∈ setBotByMessageId s.entries mid (some s.nextMsgId),
      ∃ y ∈ s.entries,
        x = if y.message_id = mid then
          { y with bot_message_id := some s.nextMsgId } else y := by
    intro x hx
    obtain ⟨y, hy, hxy⟩ := List.mem_map.mp hx
    exact ⟨y, hy, hxy.symm⟩
  have hid_pres : ∀ y : Entry,
      (if y.message_id = mid then
        { y with bot_message_id := some s.nextMsgId } else y).id = y.id := by
    intro y
    split <;> rfl
  have hmid_pres : ∀ y : Entry,
      (if y.message_id = mid then
        { y with bot_message_id := some s.nextMsgId } else y).message_id
        = y.message_id := by
    intro y
    split <;> rfl
  refine ⟨?_, ?_, ?_, ?_, ?_, ?_, ?_, ?_, ?_⟩
  · intro e1 h1 e2 h2 hmid
    obtain ⟨y1, hy1, hx1⟩ := hmem e1 h1
    obtain ⟨y2, hy2, hx2⟩ := hmem e2 h2
    rw [hx1, hmid_pres y1] at hmid
    rw [hx2, hmid_pres y2] at hmid
    have h12 : y1 = y2 := h.entry_msg_inj y1 hy1 y2 hy2 hmid
    rw [hx1, hx2, h12]
  · intro e1 h1 e2 h2 hid
    obtain ⟨y1, hy1, hx1⟩ := hmem e1 h1
    obtain ⟨y2, hy2, hx2⟩ := hmem e2 h2
    rw [hx1, hid_pres y1] at hid
    rw [hx2, hid_pres y2] at hid
    have h12 : y1 = y2 := h.entry_id_inj y1 hy1 y2 hy2 hid
    rw [hx1, hx2, h12]
  · intro e1 h1
    obtain ⟨y, hy, hx⟩ := hmem e1 h1
    dsimp only
    rw [hx, hid_pres y]
    exact h.entry_id_lt y hy
  · intro p hp2
    rcases List.mem_cons.mp hp2 with hh | hh
    · rw [hh]
      dsimp only
      have := h.entry_id_lt e he
      omega
    · have := h.starrer_lt p hh
      dsimp only
      omega
  · exact h.starrer_nodup.cons hp
  · intro e1 h1 bm hbm
    dsimp only
    obtain ⟨y, hy, hx⟩ := hmem e1 h1
    rw [hx] at hbm
    by_cases hy2 : y.message_id = mid
    · rw [if_pos hy2] at hbm
      simp only [Option.some.injEq] at hbm
      omega
    · rw [if_neg hy2] at hbm
      have := h.bot_lt y hy bm hbm
      omega
  · intro e1 h1 bm hbm rsb hrsb
    have hrsb2 : rsb = (r, sb) := resolve_det hres hrsb
    obtain ⟨y, hy, hx⟩ := hmem e1 h1
    rw [hx] at hbm
    by_cases hy2 : y.message_id = mid
    · rw [if_pos hy2] at hbm
      simp only [Option.some.injEq] at hbm
      refine ⟨mirrorMsg sb.id s.nextMsgId cnt, ?_, ?_, ?_⟩
      · exact List.mem_append.mpr (Or.inr (by simp))
      · rw [← hbm]
        rfl
      · rw [hrsb2]
        rfl
    · rw [if_neg hy2] at hbm
      obtain ⟨m, hm, hid2, hch2⟩ := h.bot_live y hy bm hbm rsb hrsb
      exact ⟨m, List.mem_append.mpr (Or.inl hm), hid2, hch2⟩
  · intro e1 h1 e2 h2 bm hb1 hb2
    obtain ⟨y1, hy1, hx1⟩ := hmem e1 h1
    obtain ⟨y2, hy2, hx2⟩ := hmem e2 h2
    rw [hx1] at hb1
    rw [hx2] at hb2
    by_cases k1 : y1.message_id = mid <;> by_cases k2 : y2.message_id = mid
    · have h12 : y1 = y2 := h.entry_msg_inj y1 hy1 y2 hy2 (by rw [k1, k2])
      rw [hx1, hx2, h12]
    · rw [if_pos k1] at hb1
      simp only [Option.some.injEq] at hb1
      rw [if_neg k2] at hb2
      have := h.bot_lt y2 hy2 bm hb2
      exfalso
      omega
    · rw [if_neg k1] at hb1
      rw [if_pos k2] at hb2
      simp only [Option.some.injEq] at hb2
      have := h.bot_lt y1 hy1 bm hb1
      exfalso
      omega
    · rw [if_neg k1] at hb1
      rw [if_neg k2] at hb2
      have h12 := h.bot_inj y1 hy1 y2 hy2 bm hb1 hb2
      rw [hx1, hx2, h12]
  · intro e1 h1
    dsimp only
    obtain ⟨y, hy, hx⟩ := hmem e1 h1
    by_cases hy2 : y.message_id = mid
    · have hye : y = e := h.entry_msg_inj y hy e he (by rw [hy2, hemid])
      rw [hx, if_pos hy2]
      dsimp only
      rw [hye]
      exact ⟨fun _ => hge, fun _ => by simp⟩
    · rw [hx, if_neg hy2]
      have hne : y.id ≠ e.id := fun hcontra =>
        hy2 (by rw [h.entry_id_inj y hy e he hcontra, hemid])
      rw [countStars_cons, if_neg (fun hh => hne hh.symm), Nat.add_zero]
      exact h.mirror y hy

end Stars

namespace Stars

/-- First star of a fresh message that immediately reaches the
threshold: entry created, starrer inserted, mirror sent with a fresh
id, entry updated — the invariant is preserved. -/
theorem inv_send_new (env : Env) {s : State} (h : Inv env s)
    {r : SBRow} {sb : Channel}
    (hres : resolveStarboard env = some (r, sb))
    {mid chId gId aId sid : Nat}
    (hf : findEntryByMsg s.entries mid = none)
    (hge : threshOf env ≤
      countStars ((sid, s.nextEntryId) :: s.starrers) s.nextEntryId)
    (cnt : Nat) :
    Inv env { s with
      entries := setBotByMessageId
        ({ id := s.nextEntryId, message_id := mid, channel_id := chId,
           guild_id := gId, author_id := aId,
           bot_message_id := none } :: s.entries) mid (some s.nextMsgId),
      starrers := (sid, s.nextEntryId) :: s.starrers,
      nextEntryId := s.nextEntryId + 1,
      msgs := s.msgs ++ [mirrorMsg sb.id s.nextMsgId cnt],
      nextMsgId := s.nextMsgId + 1 } := by
  have hnomid := findEntryByMsg_none hf
  set newE : Entry :=
    { id := s.nextEntryId, message_id := mid, channel_id := chId,
      guild_id := gId, author_id := aId, bot_message_id := none } with hnewE
  have hmem : ∀ x ∈ setBotByMessageId (newE :: s.entries) mid (some s.nextMsgId),
      ∃ y, (y = newE ∨ y ∈ s.entries) ∧
        x = if y.message_id = mid then
          { y with bot_message_id := some s.nextMsgId } else y := by
    intro x hx
    obtain ⟨y, hy, hxy⟩ := List.mem_map.mp hx
    exact ⟨y, List.mem_cons.mp hy, hxy.symm⟩
  have hid_pres : ∀ y : Entry,
      (if y.message_id = mid then
        { y with bot_message_id := some s.nextMsgId } else y).id = y.id := by
    intro y
    split <;> rfl
  have hmid_pres : ∀ y : Entry,
      (if y.message_id = mid then
        { y with bot_message_id := some s.nextMsgId } else y).message_id
        = y.message_id := by
    intro y
    split <;> rfl
  have hyid : ∀ y, y = newE ∨ y ∈ s.entries → y.message_id = mid → y = newE := by
    intro y hy hymid
    rcases hy with hh | hh
    · exact hh
    · exact absurd hymid (hnomid y hh)
  refine ⟨?_, ?_, ?_, ?_, ?_, ?_, ?_, ?_, ?_⟩
  · intro e1 h1 e2 h2 hmid
    obtain ⟨y1, hy1, hx1⟩ := hmem e1 h1
    obtain ⟨y2, hy2, hx2⟩ := hmem e2 h2
    rw [hx1, hmid_pres y1] at hmid
    rw [hx2, hmid_pres y2] at hmid
    have h12 : y1 = y2 := by
      rcases hy1 with k1 | k1 <;> rcases hy2 with k2 | k2
      · rw [k1, k2]
      · rw [k1] at hmid
        exact absurd hmid.symm (hnomid y2 k2)
      · rw [k2] at hmid
        exact absurd hmid (hnomid y1 k1)
      · exact h.entry_msg_inj y1 k1 y2 k2 hmid
    rw [hx1, hx2, h12]
  · intro e1 h1 e2 h2 hid
    obtain ⟨y1, hy1, hx1⟩ := hmem e1 h1
    obtain ⟨y2, hy2, hx2⟩ := hmem e2 h2
    rw [hx1, hid_pres y1] at hid
    rw [hx2, hid_pres y2] at hid
    have h12 : y1 = y2 := by
      rcases hy1 with k1 | k1 <;> rcases hy2 with k2 | k2
      · rw [k1, k2]
      · rw [k1] at hid
        have := h.entry_id_lt y2 k2
        dsimp only at hid
        exfalso
        omega
      · rw [k2] at hid
        have := h.entry_id_lt y1 k1
        dsimp only at hid
        exfalso
        omega
      · exact h.entry_id_inj y1 k1 y2 k2 hid
    rw [hx1, hx2, h12]
  · intro e1 h1
    dsimp only
    obtain ⟨y, hy, hx⟩ := hmem e1 h1
    rw [hx, hid_pres y]
    rcases hy with hh | hh
    · rw [hh]
      dsimp only
      omega
    · have := h.entry_id_lt y hh
      omega
  · intro p hp2
    dsimp only
    rcases List.mem_cons.mp hp2 with hh | hh
    · rw [hh]
      dsimp only
      omega
    · have := h.starrer_lt p hh
      omega
  · refine h.starrer_nodup.cons ?_
    intro hmem2
    have := h.starrer_lt _ hmem2
    omega
  · intro e1 h1 bm hbm
    dsimp only
    obtain ⟨y, hy, hx⟩ := hmem e1 h1
    rw [hx] at hbm
    by_cases hy2 : y.message_id = mid
    · rw [if_pos hy2] at hbm
      simp only [Option.some.injEq] at hbm
      omega
    · rw [if_neg hy2] at hbm
      rcases hy with hh | hh
      · rw [hh] at hbm
        simp at hbm
      · have := h.bot_lt y hh bm hbm
        omega
  · intro e1 h1 bm hbm rsb hrsb
    have hrsb2 : rsb = (r, sb) := resolve_det hres hrsb
    obtain ⟨y, hy, hx⟩ := hmem e1 h1
    rw [hx] at hbm
    by_cases hy2 : y.message_id = mid
    · rw [if_pos hy2] at hbm
      simp only [Option.some.injEq] at hbm
      refine ⟨mirrorMsg sb.id s.nextMsgId cnt, ?_, ?_, ?_⟩
      · exact List.mem_append.mpr (Or.inr (by simp))
      · rw [← hbm]
        rfl
      · rw [hrsb2]
        rfl
    · rw [if_neg hy2] at hbm
      rcases hy with hh | hh
      · rw [hh] at hbm
        simp at hbm
      · obtain ⟨m, hm, hid2, hch2⟩ := h.bot_live y hh bm hbm rsb hrsb
        exact ⟨m, List.mem_append.mpr (Or.inl hm), hid2, hch2⟩
  · intro e1 h1 e2 h2 bm hb1 hb2
    obtain ⟨y1, hy1, hx1⟩ := hmem e1 h1
    obtain ⟨y2, hy2, hx2⟩ := hmem e2 h2
    rw [hx1] at hb1
    rw [hx2] at hb2
    by_cases k1 : y1.message_id = mid <;> by_cases k2 : y2.message_id = mid
    · have h12 : y1 = y2 := by
        rw [hyid y1 hy1 k1, hyid y2 hy2 k2]
      rw [hx1, hx2, h12]
    · rw [if_pos k1] at hb1
      simp only [Option.some.injEq] at hb1
      rw [if_neg k2] at hb2
      rcases hy2 with hh | hh
      · rw [hh] at hb2
        simp at hb2
      · have := h.bot_lt y2 hh bm hb2
        exfalso
        omega
    · rw [if_neg k1] at hb1
      rw [if_pos k2] at hb2
      simp only [Option.some.injEq] at hb2
      rcases hy1 with hh | hh
      · rw [hh] at hb1
        simp at hb1
      · have := h.bot_lt y1 hh bm hb1
        exfalso
        omega
    · rw [if_neg k1] at hb1
      rw [if_neg k2] at hb2
      rcases hy1 with hh1 | hh1
      · rw [hh1] at hb1
        simp at hb1
      rcases hy2 with hh2 | hh2
      · rw [hh2] at hb2
        simp at hb2
      have h12 := h.bot_inj y1 hh1 y2 hh2 bm hb1 hb2
      rw [hx1, hx2, h12]
  · intro e1 h1
    dsimp only
    obtain ⟨y, hy, hx⟩ := hmem e1 h1
    by_cases hy2 : y.message_id = mid
    · have hye : y = newE := hyid y hy hy2
      rw [hx, if_pos hy2]
      dsimp only
      rw [hye]
      refine ⟨fun _ => ?_, fun _ => by simp⟩
      exact hge
    · rw [hx, if_neg hy2]
      rcases hy with hh | hh
      · rw [hh] at hy2
        exact absurd rfl hy2
      · have hne : y.id ≠ s.nextEntryId := by
          have := h.entry_id_lt y hh
          omega
        rw [countStars_cons, if_neg (fun hh2 => hne hh2.symm), Nat.add_zero]
        exact h.mirror y hh

end Stars

namespace Stars

/-- Characterization of the atomic insert statement's success: either
the entry already existed and only the starrer pair was inserted, or a
fresh entry was created together with the starrer pair. -/
theorem star_entry_insert_ok {mid chId gId aId sid : Nat} {s : State}
    {eid : Nat} {s2 : State}
    (h : star_entry_insert mid chId gId aId sid s = .ok (eid, s2)) :
    (∃ e, findEntryByMsg s.entries mid = some e ∧ (sid, e.id) ∉ s.starrers ∧
      eid = e.id ∧ s2 = { s with starrers := (sid, e.id) :: s.starrers }) ∨
    (findEntryByMsg s.entries mid = none ∧
      (sid, s.nextEntryId) ∉ s.starrers ∧ eid = s.nextEntryId ∧
      s2 = { s with
        entries := { id := s.nextEntryId, message_id := mid,
                     channel_id := chId, guild_id := gId, author_id := aId,
                     bot_message_id := none } :: s.entries,
        starrers := (sid, s.nextEntryId) :: s.starrers,
        nextEntryId := s.nextEntryId + 1 }) := by
  cases hf : findEntryByMsg s.entries mid with
  | some e =>
    simp only [star_entry_insert, hf] at h
    by_cases hp : (sid, e.id) ∈ s.starrers
    · rw [if_pos hp] at h
      cases h
    · rw [if_neg hp] at h
      injection h with h2
      injection h2 with ha hb
      subst ha
      subst hb
      exact Or.inl ⟨e, rfl, hp, rfl, rfl⟩
  | none =>
    simp only [star_entry_insert, hf] at h
    by_cases hp : (sid, s.nextEntryId) ∈ s.starrers
    · rw [if_pos hp] at h
      cases h
    · rw [if_neg hp] at h
      injection h with h2
      injection h2 with ha hb
      subst ha
      subst hb
      exact Or.inr ⟨rfl, hp, rfl, rfl⟩

/-- `_star_message` preserves the invariant, for any fuel. -/
theorem star_message_inv (env : Env) (fuel : Nat) :
    ∀ (now : Int) (ch : Channel) (mid sid : Nat) (s : State),
    Inv env s → Inv env (star_message env fuel now ch mid sid s).2 := by
  induction fuel with
  | zero =>
    intro now ch mid sid s h
    exact h
  | succ fuel ih =>
    intro now ch mid sid s h
    cases hres : resolveStarboard env with
    | none =>
      simp [star_message, hres]
      exact h
    | some rsb =>
      obtain ⟨r, sb⟩ := rsb
      have hth := threshOf_eq hres
      cases hlk : r.locked with
      | true =>
        simp [star_message, hres, hlk]
        exact h
      | false =>
      cases hns : (ch.nsfw && !sb.nsfw) with
      | true =>
        simp [star_message, hres, hlk, hns]
        exact h
      | false =>
      by_cases hcid : ch.id = sb.id
      · cases hfb : findEntryByBot s.entries mid with
        | none =>
          simp [star_message, hres, hlk, hns, hcid, hfb]
          exact h
        | some e =>
          cases hgc : getChannel env e.channel_id with
          | none =>
            simp [star_message, hres, hlk, hns, hcid, hfb, hgc]
            exact h
          | some ch2 =>
            simp [star_message, hres, hlk, hns, hcid, hfb, hgc]
            exact ih now ch2 e.message_id sid s h
      · cases hsend : env.canSend with
        | false =>
          simp [star_message, hres, hlk, hns, hcid, hsend]
          exact h
        | true =>
        rcases hgm : get_message ch.id mid s with ⟨o, s1⟩
        have h1 : Inv env s1 := inv_of_gm h hgm
        cases o with
        | none =>
          simp [star_message, hres, hlk, hns, hcid, hsend, hgm]
          exact h1
        | some msg =>
          by_cases hself : msg.author_id = sid
          · simp [star_message, hres, hlk, hns, hcid, hsend, hgm, hself]
            exact h1
          by_cases hstar :
              ((!msg.has_content && !msg.has_attachments) || !msg.type_ok) = true
          · simp [star_message, hres, hlk, hns, hcid, hsend, hgm, hself, hstar]
            exact h1
          by_cases hage : msg.created_at < now - r.max_age
          · simp [star_message, hres, hlk, hns, hcid, hsend, hgm, hself, hstar,
                  hage]
            exact h1
          cases hins : star_entry_insert mid ch.id env.guild_id msg.author_id
              sid s1 with
          | error err =>
            simp [star_message, hres, hlk, hns, hcid, hsend, hgm, hself, hstar,
                  hage, hins]
            exact h1
          | ok pr =>
            obtain ⟨eid, s2⟩ := pr
            rcases star_entry_insert_ok hins with
              ⟨e, hf, hp, heid, hs2⟩ | ⟨hf, hp, heid, hs2⟩
            · -- the entry already existed
              obtain ⟨he, hemid⟩ := findEntryByMsg_some hf
              subst heid
              subst hs2
              by_cases hcnt :
                  countStars ((sid, e.id) :: s1.starrers) e.id < r.threshold
              · simp [star_message, hres, hlk, hns, hcid, hsend, hgm, hself,
                      hstar, hage, hins, hcnt]
                exact inv_cons_below env h1 he hp (by rw [hth]; exact hcnt)
              · have hge : r.threshold
                    ≤ countStars ((sid, e.id) :: s1.starrers) e.id :=
                  Nat.le_of_not_lt hcnt
                have hge2 : threshOf env
                    ≤ countStars ((sid, e.id) :: s1.starrers) e.id := by
                  rw [hth]
                  exact hge
                cases hbot : e.bot_message_id with
                | none =>
                  simp [star_message, hres, hlk, hns, hcid, hsend, hgm, hself,
                        hstar, hage, hins, hcnt, hf, hbot]
                  exact inv_send_existing env h1 hres hf hp hge2 _
                | some bmid =>
                  have hinv2 : Inv env
                      { s1 with starrers := (sid, e.id) :: s1.starrers } :=
                    inv_cons_above env h1 he hp (by rw [hbot]; simp) hge2
                  rcases hgm2 : get_message sb.id bmid
                      { s1 with starrers := (sid, e.id) :: s1.starrers }
                    with ⟨o2, s3⟩
                  have hinv3 : Inv env s3 := inv_of_gm hinv2 hgm2
                  cases o2 with
                  | none =>
                    simp [star_message, hres, hlk, hns, hcid, hsend, hgm, hself,
                          hstar, hage, hins, hcnt, hf, hbot, hgm2]
                    exact inv_purge env hinv3 mid
                  | some m2 =>
                    simp [star_message, hres, hlk, hns, hcid, hsend, hgm, hself,
                          hstar, hage, hins, hcnt, hf, hbot, hgm2]
                    exact inv_edit env hinv3 bmid _
            · -- a fresh entry was created
              subst heid
              subst hs2
              by_cases hcnt :
                  countStars ((sid, s1.nextEntryId) :: s1.starrers)
                    s1.nextEntryId < r.threshold
              · simp [star_message, hres, hlk, hns, hcid, hsend, hgm, hself,
                      hstar, hage, hins, hcnt]
                exact inv_new_below env h1 hf (by rw [hth]; exact hcnt)
              · have hge2 : threshOf env
                    ≤ countStars ((sid, s1.nextEntryId) :: s1.starrers)
                        s1.nextEntryId := by
                  rw [hth]
                  exact Nat.le_of_not_lt hcnt
                have hf2 : findEntryByMsg
                    ({ id := s1.nextEntryId,
                       message_id := mid,
                       channel_id := ch.id,
                       guild_id := env.guild_id,
                       author_id := msg.author_id,
                       bot_message_id := none } :: s1.entries) mid
                    = some
                      { id := s1.nextEntryId,
                        message_id := mid,
                        channel_id := ch.id,
                        guild_id := env.guild_id,
                        author_id := msg.author_id,
                        bot_message_id := none } :=
                  findEntryByMsg_cons_self rfl
                simp [star_message, hres, hlk, hns, hcid, hsend, hgm, hself,
                      hstar, hage, hins, hcnt, hf2]
                exact inv_send_new env h1 hres hf hge2 _

end Stars

namespace Stars

theorem gm_pair_nextEntryId {c m : Nat} {s' : State} {o : Option Msg}
    {s3 : State} (h : get_message c m s' = (o, s3)) :
    s3.nextEntryId = s'.nextEntryId := by
  have h2 : (get_message c m s').2 = s3 := by rw [h]
  rw [← h2]
  exact gm_nextEntryId c m s'

theorem gm_pair_nextMsgId {c m : Nat} {s' : State} {o : Option Msg}
    {s3 : State} (h : get_message c m s' = (o, s3)) :
    s3.nextMsgId = s'.nextMsgId := by
  have h2 : (get_message c m s').2 = s3 := by rw [h]
  rw [← h2]
  exact gm_nextMsgId c m s'

/-- `_unstar_message` preserves the invariant, for any fuel. -/
theorem unstar_message_inv (env : Env) (fuel : Nat) :
    ∀ (ch : Channel) (mid sid : Nat) (s : State),
    Inv env s → Inv env (unstar_message env fuel ch mid sid s).2 := by
  induction fuel with
  | zero =>
    intro ch mid sid s h
    exact h
  | succ fuel ih =>
    intro ch mid sid s h
    cases hres : resolveStarboard env with
    | none =>
      simp [unstar_message, hres]
      exact h
    | some rsb =>
      obtain ⟨r, sb⟩ := rsb
      have hth := threshOf_eq hres
      cases hlk : r.locked with
      | true =>
        simp [unstar_message, hres, hlk]
        exact h
      | false =>
      by_cases hcid : ch.id = sb.id
      · cases hfb : findEntryByBot s.entries mid with
        | none =>
          simp [unstar_message, hres, hlk, hcid, hfb]
          exact h
        | some e =>
          cases hgc : getChannel env e.channel_id with
          | none =>
            simp [unstar_message, hres, hlk, hcid, hfb, hgc]
            exact h
          | some ch2 =>
            simp [unstar_message, hres, hlk, hcid, hfb, hgc]
            exact ih ch2 e.message_id sid s h
      · cases hsend : env.canSend with
        | false =>
          simp [unstar_message, hres, hlk, hcid, hsend]
          exact h
        | true =>
        cases hfind : findEntryByMsg s.entries mid with
        | none =>
          simp [unstar_message, hres, hlk, hcid, hsend, hfind]
          exact h
        | some e =>
          obtain ⟨he, hemid⟩ := findEntryByMsg_some hfind
          by_cases hpair : (sid, e.id) ∈ s.starrers
          case neg =>
            simp [unstar_message, hres, hlk, hcid, hsend, hfind, hpair]
            exact h
          case pos =>
          by_cases hc : countStars (removeStarrer s.starrers sid e.id) e.id = 0
          · -- the entry row is deleted
            cases hbot : e.bot_message_id with
            | none =>
              simp [unstar_message, hres, hlk, hcid, hsend, hfind, hpair, hc,
                    hbot]
              exact inv_remove_delete env h sid
            | some bmid =>
              have hinv2 : Inv env
                  { s with entries := deleteEntryById s.entries e.id,
                           starrers := removeStarrer s.starrers sid e.id } :=
                inv_remove_delete env h sid
              rcases hgm2 : get_message sb.id bmid
                  { s with entries := deleteEntryById s.entries e.id,
                           starrers := removeStarrer s.starrers sid e.id }
                with ⟨o2, s3⟩
              have hinv3 : Inv env s3 := inv_of_gm hinv2 hgm2
              have hno : ∀ e2 ∈ s3.entries, e2.bot_message_id ≠ some bmid := by
                intro e2 he2 hbm2
                rw [gm_pair_entries hgm2] at he2
                have hid2 : e2.id ≠ e.id :=
                  deleteEntryById_not_mem s.entries e.id e2 he2
                have he2c : e2 ∈ s.entries := List.mem_of_mem_filter he2
                exact hid2
                  (congrArg Entry.id (h.bot_inj e2 he2c e he bmid hbm2 hbot))
              cases o2 with
              | none =>
                simp [unstar_message, hres, hlk, hcid, hsend, hfind, hpair, hc,
                      hbot, hgm2]
                exact hinv3
              | some m2 =>
                by_cases hlt2 : 0 < r.threshold
                · simp [unstar_message, hres, hlk, hcid, hsend, hfind, hpair,
                        hc, hbot, hgm2, hlt2]
                  have hinv4 : Inv env
                      { s3 with
                        aboutToBeDeleted := bmid :: s3.aboutToBeDeleted } :=
                    inv_of_fields hinv3 rfl rfl rfl rfl rfl
                  have hno4 : ∀ e2 ∈
                      ({ s3 with
                         aboutToBeDeleted :=
                           bmid :: s3.aboutToBeDeleted } : State).entries,
                      e2.bot_message_id ≠ some bmid := hno
                  exact inv_del_mirror env hinv4 hno4
                · simp [unstar_message, hres, hlk, hcid, hsend, hfind, hpair,
                        hc, hbot, hgm2, hlt2]
                  rcases hgm3 : get_message ch.id mid s3 with ⟨o3, s4⟩
                  have hinv4 : Inv env s4 := inv_of_gm hinv3 hgm3
                  cases o3 with
                  | none =>
                    simp [hgm3]
                    exact hinv4
                  | some m3 =>
                    simp [hgm3]
                    exact inv_edit env hinv4 bmid _
          · -- the entry row survives
            cases hbot : e.bot_message_id with
            | none =>
              simp [unstar_message, hres, hlk, hcid, hsend, hfind, hpair, hc,
                    hbot]
              exact inv_remove env h he sid (Or.inl hbot)
            | some bmid =>
              rcases hgm2 : get_message sb.id bmid
                  { s with starrers := removeStarrer s.starrers sid e.id }
                with ⟨o2, s3⟩
              cases o2 with
              | none =>
                -- the stored mirror is live under the invariant, so the
                -- fetch cannot fail
                have hf1 := congrArg Prod.fst hgm2
                rw [gm_fst] at hf1
                obtain ⟨-, hw⟩ := fetchM_none hf1
                obtain ⟨m, hm, hid, hch2⟩ :=
                  h.bot_live e he bmid hbot (r, sb) hres
                exact absurd hw (fetchWorld_some_of_witness m hm hid hch2)
              | some m2 =>
                by_cases hlt2 :
                    countStars (removeStarrer s.starrers sid e.id) e.id
                      < r.threshold
                · simp [unstar_message, hres, hlk, hcid, hsend, hfind, hpair,
                        hc, hbot, hgm2, hlt2]
                  have hcore : Inv env
                      { s with
                        entries := setBotNullByEntryId s.entries e.id,
                        starrers := removeStarrer s.starrers sid e.id,
                        msgs := deleteWorldMsg s.msgs bmid } := by
                    have hnul : Inv env
                        { s with
                          entries := setBotNullByEntryId s.entries e.id,
                          starrers := removeStarrer s.starrers sid e.id } :=
                      inv_null_below env h he sid (by rw [hth]; exact hlt2)
                    have hno : ∀ e2 ∈
                        ({ s with
                           entries := setBotNullByEntryId s.entries e.id,
                           starrers :=
                             removeStarrer s.starrers sid e.id } : State).entries,
                        e2.bot_message_id ≠ some bmid := by
                      intro e2 he2 hbm2
                      obtain ⟨y, hy, hxy⟩ := List.mem_map.mp he2
                      rw [← hxy] at hbm2
                      by_cases hyid : y.id = e.id
                      · rw [if_pos hyid] at hbm2
                        simp at hbm2
                      · rw [if_neg hyid] at hbm2
                        exact hyid
                          (congrArg Entry.id
                            (h.bot_inj y hy e he bmid hbm2 hbot))
                    exact inv_del_mirror env hnul hno
                  refine inv_of_fields hcore ?_ ?_ ?_ ?_ ?_
                  · show setBotNullByEntryId s3.entries e.id
                      = setBotNullByEntryId s.entries e.id
                    rw [gm_pair_entries hgm2]
                  · show s3.starrers = removeStarrer s.starrers sid e.id
                    rw [gm_pair_starrers hgm2]
                  · show s3.nextEntryId = s.nextEntryId
                    rw [gm_pair_nextEntryId hgm2]
                  · show deleteWorldMsg s3.msgs bmid = deleteWorldMsg s.msgs bmid
                    rw [gm_pair_msgs hgm2]
                  · show s3.nextMsgId = s.nextMsgId
                    rw [gm_pair_nextMsgId hgm2]
                · simp [unstar_message, hres, hlk, hcid, hsend, hfind, hpair,
                        hc, hbot, hgm2, hlt2]
                  have hrem : Inv env
                      { s with starrers := removeStarrer s.starrers sid e.id } :=
                    inv_remove env h he sid
                      (Or.inr ⟨by rw [hbot]; simp,
                        by rw [hth]; exact Nat.le_of_not_lt hlt2⟩)
                  have hinv3 : Inv env s3 := inv_of_gm hrem hgm2
                  rcases hgm3 : get_message ch.id mid s3 with ⟨o3, s4⟩
                  have hinv4 : Inv env s4 := inv_of_gm hinv3 hgm3
                  cases o3 with
                  | none =>
                    simp [hgm3]
                    exact hinv4
                  | some m3 =>
                    simp [hgm3]
                    exact inv_edit env hinv4 bmid _

end Stars

namespace Stars

/-- Every reachable engine state satisfies the invariant. -/
theorem reachable_inv (env : Env) (s : State) (h : Reachable env s) :
    Inv env s := by
  induction h with
  | init msgs0 nm =>
    refine ⟨?_, ?_, ?_, ?_, ?_, ?_, ?_, ?_, ?_⟩ <;> simp
  | star h2 fuel now ch mid sid ih =>
    exact star_message_inv env fuel now ch mid sid _ ih
  | unstar h2 fuel ch mid sid ih =>
    exact unstar_message_inv env fuel ch mid sid _ ih

/-- C1: in every reachable state (starting from an empty store, under
any fixed configuration, with no external deletions), an entry's
`bot_message_id` is non-null exactly when the entry's distinct-starrer
count is at least the guild's threshold: star leaves the mirror absent
below threshold and creates/updates it otherwise, and unstar deletes
the mirror and nulls `bot_message_id` exactly when the count drops
below threshold. -/
theorem mirror_iff_threshold (env : Env) (s : State) (h : Reachable env s) :
    ∀ e ∈ s.entries,
      (e.bot_message_id ≠ none ↔ threshOf env ≤ countStars s.starrers e.id) :=
  (reachable_inv env s h).mirror

/-- Witness for C1: in the state reached by one star of message 5 by
user 7 (count 1, threshold 2), the created entry has no mirror and its
count is below threshold. -/
theorem mirror_iff_threshold_witness :
    ({ id := 0, message_id := 5, channel_id := 10, guild_id := 1,
       author_id := 42, bot_message_id := none } : Entry).bot_message_id
        ≠ none ↔
      threshOf envW ≤
        countStars (star_message envW 2 0 chOrigin 5 7 stateW0).2.starrers
          ({ id := 0, message_id := 5, channel_id := 10, guild_id := 1,
             author_id := 42, bot_message_id := none } : Entry).id :=
  mirror_iff_threshold envW _
    (Reachable.star (Reachable.init [msgW] 100) 2 0 chOrigin 5 7)
    { id := 0, message_id := 5, channel_id := 10, guild_id := 1,
      author_id := 42, bot_message_id := none }
    (by decide)

end Stars
